import Mathlib

/-!
# c4 `matrix.hpp`: strided views and the owning grid

A shallow embedding of `src/c4/matrix.hpp`.

Modelling conventions.

* A C++ `int` is an `Int` between `INT_MIN` and `INT_MAX`.  The products
  `i * stride_` and `height * stride` the code computes in `int` are modelled
  by `int_mul`, which wraps to 32 bits as two's complement hardware does (the
  language leaves signed overflow undefined).  The other `int` arithmetic,
  `height_ - 1` and `width_ - 1` in `clamp_get` and the loop increments, is
  exact for every dimension above `INT_MIN`.  The conversion of a negative
  `int` to `size_t` (a value above `max_size()`) is the `length_error` fault.
* A `T*` is a `pointer`: the identity of an allocation and an element offset
  into it.  Pointer arithmetic moves the offset only.
* `assert` is modelled as in a debug build: a failed assertion is the fault
  `assertion`.  An access to storage that does not exist is the fault
  `undefined`.
* `T&` results (`operator[]`, `clamp_get`) are modelled by the pointer to
  the element; the value is obtained by a `load` from the memory the view
  looks into.
* `std::vector<T>` is modelled by its elements, its capacity and the identity
  of its current allocation; a reallocation gives a new allocation identity.
* The memory a `matrix_ref` argument of a constructor looks into is separate
  from the store of the `matrix` under construction, which is new.
-/

namespace c4

/-- Ways an operation stops instead of returning. -/
inductive fault where
  /-- A debug `assert` failed. -/
  | assertion
  /-- A `std::vector` was asked for more than `max_size()` elements. -/
  | length_error
  /-- Storage that does not exist was read or written. -/
  | undefined
  /-- The function template cannot be instantiated: every use is rejected. -/
  | ill_formed
  deriving DecidableEq, Repr

/-- The least `int`. -/
def INT_MIN : Int := -2147483648

/-- The greatest `int`. -/
def INT_MAX : Int := 2147483647

/-- The value is an `int` value. -/
def in_int (x : Int) : Prop := INT_MIN ≤ x ∧ x ≤ INT_MAX

/-- Being an `int` value can be checked. -/
instance (x : Int) : Decidable (in_int x) :=
  inferInstanceAs (Decidable (INT_MIN ≤ x ∧ x ≤ INT_MAX))

/-- The `int` a result is stored as: the value modulo `2^32`, taken between
`INT_MIN` and `INT_MAX`. -/
def wrap_int (x : Int) : Int := (x + 2147483648) % 4294967296 - 2147483648

/-- The `int` product `a * b`. -/
def int_mul (a b : Int) : Int := wrap_int (a * b)

/-- A raw `T*`: which allocation it points into and at which element. -/
structure pointer where
  block : Nat
  off : Int
  deriving DecidableEq, Repr

/-- The null pointer; block `0` is never an allocation. -/
def nullptr : pointer := ⟨0, 0⟩

/-- Pointer arithmetic `p + k`. -/
def pointer.add (p : pointer) (k : Int) : pointer := ⟨p.block, p.off + k⟩

/-- Memory as seen through raw pointers: the content of every existing cell. -/
abbrev memory (T : Type) := pointer → Option T

/-- Reading `*p`. -/
def load {T : Type} (mem : memory T) (p : pointer) : Except fault T :=
  match mem p with
  | some x => .ok x
  | none => .error .undefined

/-- Results of fallible operations can be compared. -/
instance {ε α : Type} [DecidableEq ε] [DecidableEq α] : DecidableEq (Except ε α)
  | .ok a, .ok b => if h : a = b then isTrue (by rw [h]) else isFalse (fun e => h (by cases e; rfl))
  | .error a, .error b =>
    if h : a = b then isTrue (by rw [h]) else isFalse (fun e => h (by cases e; rfl))
  | .ok _, .error _ => isFalse (fun e => by cases e)
  | .error _, .ok _ => isFalse (fun e => by cases e)

/-! ## `vector_ref` -/

/-- The class `vector_ref<T>`: `size_` and `ptr_`. -/
structure vector_ref where
  size_ : Int
  ptr_ : pointer
  deriving DecidableEq, Repr

/-- `bool is_inside(int x) const`. -/
def vector_ref.is_inside (v : vector_ref) (x : Int) : Bool :=
  decide (0 ≤ x) && decide (x < v.size_)

/-- `vector_ref(int length, T* ptr)`. -/
def vector_ref.ctor (length : Int) (ptr : pointer) : vector_ref := ⟨length, ptr⟩

/-- `static create_const(int size, const T* ptr)`. -/
def vector_ref.create_const (size : Int) (ptr : pointer) : vector_ref :=
  vector_ref.ctor size ptr

/-- `int size() const`. -/
def vector_ref.size (v : vector_ref) : Int := v.size_

/-- `T* data()`. -/
def vector_ref.data (v : vector_ref) : pointer := v.ptr_

/-- `T& operator[](int i)`: the asserted element reference `ptr_[i]`. -/
def vector_ref.operator_index (v : vector_ref) (i : Int) : Except fault pointer :=
  if v.is_inside i then .ok (v.ptr_.add i) else .error .assertion

/-! ## `matrix_ref` -/

/-- The class `matrix_ref<T>`: `height_`, `width_`, `stride_` and `ptr_`. -/
structure matrix_ref where
  height_ : Int
  width_ : Int
  stride_ : Int
  ptr_ : pointer
  deriving DecidableEq, Repr

/-- `matrix_ref(int height, int width, int stride, T* ptr)`. -/
def matrix_ref.ctor (height width stride : Int) (ptr : pointer) : matrix_ref :=
  ⟨height, width, stride, ptr⟩

/-- The protected `matrix_ref()`. -/
def matrix_ref.ctor_default : matrix_ref := ⟨0, 0, 0, nullptr⟩

/-- `int height() const`. -/
def matrix_ref.height (m : matrix_ref) : Int := m.height_

/-- `int width() const`. -/
def matrix_ref.width (m : matrix_ref) : Int := m.width_

/-- `int stride() const`. -/
def matrix_ref.stride (m : matrix_ref) : Int := m.stride_

/-- `bool is_inside(int y, int x) const`. -/
def matrix_ref.is_inside (m : matrix_ref) (y x : Int) : Bool :=
  decide (0 ≤ y) && decide (y < m.height_) && decide (0 ≤ x) && decide (x < m.width_)

/-- `T* data()`. -/
def matrix_ref.data (m : matrix_ref) : pointer := m.ptr_

/-- `vector_ref<T> operator[](int i)`: the asserted row view. -/
def matrix_ref.operator_index (m : matrix_ref) (i : Int) : Except fault vector_ref :=
  if 0 ≤ i ∧ i < m.height_ then
    .ok (vector_ref.ctor m.width_ (m.ptr_.add (int_mul i m.stride_)))
  else .error .assertion

/-- The expression `grid[i][j]`: the row step, then the element step. -/
def matrix_ref.cell (m : matrix_ref) (i j : Int) : Except fault pointer := do
  let row ← m.operator_index i
  row.operator_index j

/-- `const T& clamp_get(int i, int j) const`. -/
def matrix_ref.clamp_get (m : matrix_ref) (i j : Int) : Except fault pointer :=
  let i := max i 0
  let i := min i (m.height_ - 1)
  let j := max j 0
  let j := min j (m.width_ - 1)
  do
    let row ← m.operator_index i
    row.operator_index j

/-- The value of `grid[i][j]` in the memory the view looks into. -/
def matrix_ref.read {T : Type} (m : matrix_ref) (mem : memory T) (i j : Int) :
    Except fault T := do
  let p ← m.cell i j
  load mem p

/-- Every logical cell of the view exists in `mem`. -/
def matrix_ref.valid {T : Type} (m : matrix_ref) (mem : memory T) : Prop :=
  ∀ i j : Int, 0 ≤ i → i < m.height_ → 0 ≤ j → j < m.width_ →
    (mem (m.ptr_.add (i * m.stride_ + j))).isSome = true

/-! ## `std::vector` -/

/-- A `std::vector<T>`: elements, capacity, identity of the allocation. -/
structure std_vector (T : Type) where
  elems : List T
  capacity : Nat
  block : Nat
  deriving DecidableEq, Repr

namespace std_vector

variable {T : Type}

/-- `vector(size_type n)` called with an `int`: `n` value-initialised elements;
a negative count converts to a `size_t` above `max_size()`. -/
def ctor [Inhabited T] (n : Int) : Except fault (std_vector T) :=
  if n < 0 then .error .length_error
  else .ok ⟨List.replicate n.toNat default, n.toNat, 1⟩

/-- `size()`. -/
def size (v : std_vector T) : Nat := v.elems.length

/-- `data()`: the start of the current allocation. -/
def data (v : std_vector T) : pointer := ⟨v.block, 0⟩

/-- `resize(n)`: truncates, or appends value-initialised elements, with a
reallocation when `n` exceeds the capacity. -/
def resize [Inhabited T] (v : std_vector T) (n : Nat) : std_vector T :=
  if n ≤ v.elems.length then
    { v with elems := v.elems.take n }
  else if n ≤ v.capacity then
    { v with elems := v.elems ++ List.replicate (n - v.elems.length) default }
  else
    { elems := v.elems ++ List.replicate (n - v.elems.length) default
      capacity := max n (2 * v.elems.length)
      block := v.block + 1 }

/-- `shrink_to_fit()`: the excess capacity is released by a reallocation, as
libstdc++, libc++ and the MSVC library do whenever `capacity() > size()`; the
elements move to the new allocation and pointers into the old one are
invalidated. -/
def shrink_to_fit (v : std_vector T) : std_vector T :=
  if v.elems.length < v.capacity then
    { elems := v.elems, capacity := v.elems.length, block := v.block + 1 }
  else v

/-- The store as memory: cell `k` of the current allocation is element `k`. -/
def mem (v : std_vector T) : memory T := fun p =>
  if p.block = v.block ∧ 0 ≤ p.off then v.elems[p.off.toNat]? else none

/-- Writing `*p = x` into the store. -/
def store (v : std_vector T) (p : pointer) (x : T) : Except fault (std_vector T) :=
  if p.block = v.block ∧ 0 ≤ p.off ∧ p.off < v.elems.length then
    .ok { v with elems := v.elems.set p.off.toNat x }
  else .error .undefined

/-- `std::copy(src.begin(), src.end(), dst.begin())`. -/
def copy_from (dst src : std_vector T) : Except fault (std_vector T) :=
  if src.elems.length ≤ dst.elems.length then
    .ok { dst with elems := src.elems ++ dst.elems.drop src.elems.length }
  else .error .undefined

end std_vector

/-- `std::copy(first, first + n, out)` over raw pointers, writing into the
store `v`: `*out++ = *first++`, `n` times. -/
def std_copy_n {T : Type} (mem : memory T) :
    Nat → pointer → pointer → std_vector T → Except fault (std_vector T)
  | 0, _, _, v => .ok v
  | n + 1, first, out, v => do
    let x ← load mem first
    let v ← v.store out x
    std_copy_n mem n (first.add 1) (out.add 1) v

/-- `std::copy(first, first + count, out)`; `[first, first + count)` is a
range only for a non-negative `count`. -/
def std_copy {T : Type} (mem : memory T) (first : pointer) (count : Int) (out : pointer)
    (v : std_vector T) : Except fault (std_vector T) :=
  if count < 0 then .error .undefined
  else std_copy_n mem count.toNat first out v

/-! ## `matrix` -/

/-- The class `matrix<T>`: a `matrix_ref<T>` together with the buffer `v`. -/
structure matrix (T : Type) extends matrix_ref where
  v : std_vector T
  deriving DecidableEq, Repr

namespace matrix

variable {T : Type}

/-- `matrix(int height, int width, int stride)`. -/
def ctor [Inhabited T] (height width stride : Int) : Except fault (matrix T) := do
  let v ← std_vector.ctor (int_mul height stride)
  pure { tomatrix_ref := matrix_ref.ctor height width stride v.data, v := v }

/-- `matrix(int height, int width)`. -/
def ctor_hw [Inhabited T] (height width : Int) : Except fault (matrix T) :=
  ctor height width width

/-- `matrix()`. -/
def ctor_default [Inhabited T] : Except fault (matrix T) :=
  ctor 0 0 0

/-- `void resize(int height, int width, int stride)`. -/
def resize [Inhabited T] (m : matrix T) (height width stride : Int) :
    Except fault (matrix T) :=
  if int_mul height stride < 0 then .error .length_error
  else
    let v := m.v.resize (int_mul height stride).toNat
    .ok { height_ := height, width_ := width, stride_ := stride, ptr_ := v.data, v := v }

/-- `void resize(int height, int width)`. -/
def resize_hw [Inhabited T] (m : matrix T) (height width : Int) : Except fault (matrix T) :=
  m.resize height width width

/-- `template<typename T2> void resize(const matrix_ref<T2>& b)`. -/
def resize_ref [Inhabited T] (m : matrix T) (b : matrix_ref) : Except fault (matrix T) :=
  m.resize b.height b.width b.stride

/-- `void shrink_to_fit()`. -/
def shrink_to_fit (m : matrix T) : matrix T :=
  { m with v := m.v.shrink_to_fit }

/-- `void clear_and_shrink()`. -/
def clear_and_shrink [Inhabited T] (m : matrix T) : Except fault (matrix T) := do
  let m ← m.resize_hw 0 0
  pure { m with v := m.v.shrink_to_fit }

/-- The state of a `matrix` whose base classes were default-initialised. -/
def bases_default [Inhabited T] : Except fault (matrix T) := do
  let v ← std_vector.ctor 0
  pure { tomatrix_ref := matrix_ref.ctor_default, v := v }

/-- `matrix& operator=(const matrix& b)`. -/
def assign [Inhabited T] (m b : matrix T) : Except fault (matrix T) := do
  let m ← m.resize_ref b.tomatrix_ref
  let v ← m.v.copy_from b.v
  pure { m with v := v }

/-- `matrix(const matrix& b)`. -/
def ctor_copy [Inhabited T] (b : matrix T) : Except fault (matrix T) := do
  let m ← bases_default
  let m ← m.resize_ref b.tomatrix_ref
  let v ← m.v.copy_from b.v
  pure { m with v := v }

/-- The loop of the constructor from a view, `for (int i = 0; i < b.height(); i++)
std::copy(b[i].data(), b[i].data() + b.width(), (*this)[i].data())`, with `n`
iterations left, the next one for row `i`. -/
def copy_rows (mem : memory T) (b : matrix_ref) :
    Nat → Int → matrix T → Except fault (matrix T)
  | 0, _, m => .ok m
  | n + 1, i, m => do
    let src ← b.operator_index i
    let dst ← m.tomatrix_ref.operator_index i
    let v ← std_copy mem src.data b.width dst.data m.v
    copy_rows mem b n (i + 1) { m with v := v }

/-- `matrix& operator=(const matrix_ref<T>& b)`.  Its loop calls
`std::copy(b[i], b[i] + b.width(), (*this)[i])`: the first argument is a
`const vector_ref<T>`, the second a `const T*`, and `std::copy` takes both
ends of the input range from one template parameter, so no `std::copy` can be
deduced and the operator cannot be instantiated for any `T`. -/
def assign_ref (_m : matrix T) (_mem : memory T) (_b : matrix_ref) :
    Except fault (matrix T) :=
  .error .ill_formed

/-- `matrix(const matrix_ref<T>& b)`, `b` looking into `mem`. -/
def ctor_ref [Inhabited T] (mem : memory T) (b : matrix_ref) : Except fault (matrix T) := do
  let m ← bases_default
  let m ← m.resize_ref b
  copy_rows mem b b.height.toNat 0 m

/-- The value of `grid[i][j]` of an owning grid, read from its own store. -/
def get (m : matrix T) (i j : Int) : Except fault T :=
  m.tomatrix_ref.read m.v.mem i j

/-- The storage-size invariant: the store holds `height * stride` elements,
the `int` product the constructors and `resize` pass to the vector. -/
def size_inv (m : matrix T) : Prop :=
  (m.v.elems.length : Int) = int_mul m.height_ m.stride_

/-- The storage-size invariant can be checked. -/
instance (m : matrix T) : Decidable m.size_inv :=
  inferInstanceAs (Decidable ((m.v.elems.length : Int) = int_mul m.height_ m.stride_))

/-- The logical state of an owning grid: its dimensions and its store. -/
def logical_state (m : matrix T) : Int × Int × Int × List T :=
  (m.height, m.width, m.stride, m.v.elems)

/-- The base invariant: `data()` is the start of the owned store. -/
def base_inv (m : matrix T) : Prop :=
  m.data = m.v.data

/-- The base invariant can be checked. -/
instance (m : matrix T) : Decidable m.base_inv :=
  inferInstanceAs (Decidable (m.data = m.v.data))

/-- The assignment `grid[i][j] = x` on an owning grid: the element reference
is taken, then written through into the store. -/
def set (m : matrix T) (i j : Int) (x : T) : Except fault (matrix T) := do
  let p ← m.tomatrix_ref.cell i j
  let v ← m.v.store p x
  pure { m with v := v }

end matrix

/-- Writing `*p = x` into a memory. -/
def memory.store {T : Type} (mem : memory T) (p : pointer) (x : T) :
    Except fault (memory T) :=
  if (mem p).isSome then .ok (Function.update mem p (some x)) else .error .undefined

/-- The assignment `grid[i][j] = x` through a view that looks into `mem`. -/
def matrix_ref.write {T : Type} (g : matrix_ref) (mem : memory T) (i j : Int) (x : T) :
    Except fault (memory T) := do
  let p ← g.cell i j
  mem.store p x

/-! ## Concrete instances -/

/-- A memory whose block `7` has ten cells, cell `k` holding `100 + k`. -/
def example_memory : memory Int := fun p =>
  if p.block = 7 ∧ 0 ≤ p.off ∧ p.off < 10 then some (100 + p.off) else none

/-- A padded view into `example_memory`: 2 rows of 3 elements, stride 5. -/
def example_view : matrix_ref := ⟨2, 3, 5, ⟨7, 0⟩⟩

/-- An owning grid with 2 rows of 1 element, stride 2, holding 1, 2, 3, 4. -/
def example_grid : matrix Int := ⟨⟨2, 1, 2, ⟨1, 0⟩⟩, ⟨[1, 2, 3, 4], 4, 1⟩⟩

/-- The grid `matrix<int> m(3, 2, 4)` after `m[i][j] = 2*i + j` for every
logical cell, in row-major order. -/
def filled_grid : Except fault (matrix Int) := do
  let m ← matrix.ctor 3 2 4
  let m ← m.set 0 0 0
  let m ← m.set 0 1 1
  let m ← m.set 1 0 2
  let m ← m.set 1 1 3
  let m ← m.set 2 0 4
  m.set 2 1 5

/-- The grid `matrix<int> m(2, 2)` after `m[i][j] = 10*i + j + 1` for every
cell, `m.resize(1, 1)` and `m.shrink_to_fit()`, together with the grid just
before the `shrink_to_fit()`. -/
def shrunk_grid : Except fault (matrix Int × matrix Int) := do
  let m ← matrix.ctor_hw 2 2
  let m ← m.set 0 0 1
  let m ← m.set 0 1 2
  let m ← m.set 1 0 11
  let m ← m.set 1 1 12
  let m ← m.resize_hw 1 1
  pure (m, m.shrink_to_fit)

end c4

/-! # Properties -/

namespace c4

/-! ## `int` arithmetic -/

theorem wrap_int_of_in_int {x : Int} (h : in_int x) : wrap_int x = x := by
  simp only [in_int, INT_MIN, INT_MAX] at h
  unfold wrap_int
  omega

/-- An `int` product that does not overflow is the product. -/
theorem int_mul_of_fits {a b : Int} (h : in_int (a * b)) : int_mul a b = a * b :=
  wrap_int_of_in_int h

theorem in_int_of_bounds {x : Int} (h0 : 0 ≤ x) (h1 : x ≤ INT_MAX) : in_int x := by
  simp only [in_int, INT_MIN, INT_MAX] at *
  omega

/-- In a grid of non-negative stride whose `height * stride` is an `int`
value, the product `i * stride` of every row inside the grid is one too. -/
theorem row_offset_fits {h s i : Int} (hi0 : 0 ≤ i) (hi : i < h) (hs : 0 ≤ s)
    (hfit : h * s ≤ INT_MAX) : in_int (i * s) :=
  in_int_of_bounds (mul_nonneg hi0 hs)
    (le_trans (mul_le_mul_of_nonneg_right (le_of_lt hi) hs) hfit)

/-- Products that leave the `int` range wrap: row 65536 of a view of stride
65536 starts at the base again, a grid of 46341 rows of stride 46341 is asked
for a negative count, and 65536 rows of stride 65536 get an empty store. -/
theorem int_mul_wraps :
    (⟨65537, 1, 65536, ⟨7, 0⟩⟩ : matrix_ref).cell 65536 0 = .ok ⟨7, 0⟩ ∧
    (matrix.ctor 46341 1 46341 : Except fault (matrix Int)) = .error .length_error ∧
    example_grid.resize 65536 1 65536 = .ok ⟨⟨65536, 1, 65536, ⟨1, 0⟩⟩, ⟨[], 4, 1⟩⟩ := by
  decide

/-! ## Pointer arithmetic and flat indices -/

theorem pointer.add_zero (p : pointer) : p.add 0 = p := by
  cases p; simp [pointer.add]

theorem pointer.add_add (p : pointer) (a b : Int) : (p.add a).add b = p.add (a + b) := by
  cases p; simp [pointer.add, Int.add_assoc]

/-- Inside a grid with `width ≤ stride`, row `i` lies before row `i + 1`, and
the last row ends inside `height * stride`. -/
theorem flat_index_bounds {h w s i : Int} (hi0 : 0 ≤ i) (hi : i < h) (hw0 : 0 ≤ w)
    (hws : w ≤ s) : 0 ≤ i * s ∧ i * s + w ≤ (i + 1) * s ∧ (i + 1) * s ≤ h * s := by
  have hs : 0 ≤ s := le_trans hw0 hws
  refine ⟨mul_nonneg hi0 hs, ?_, ?_⟩
  · have : (i + 1) * s = i * s + s := by ring
    omega
  · exact mul_le_mul_of_nonneg_right (by omega) hs

/-! ## Indexing -/

theorem vector_ref.element_of_inside (v : vector_ref) (i : Int) (h0 : 0 ≤ i)
    (h1 : i < v.size_) : v.operator_index i = .ok (v.ptr_.add i) := by
  simp [vector_ref.operator_index, vector_ref.is_inside, h0, h1]

theorem matrix_ref.row_of_inside (g : matrix_ref) (i : Int) (h0 : 0 ≤ i)
    (h1 : i < g.height_) :
    g.operator_index i = .ok ⟨g.width_, g.ptr_.add (int_mul i g.stride_)⟩ := by
  simp [matrix_ref.operator_index, vector_ref.ctor, h0, h1]

theorem matrix_ref.row_of_fit (g : matrix_ref) (i : Int) (h0 : 0 ≤ i)
    (h1 : i < g.height_) (hfit : in_int (i * g.stride_)) :
    g.operator_index i = .ok ⟨g.width_, g.ptr_.add (i * g.stride_)⟩ := by
  rw [matrix_ref.row_of_inside g i h0 h1, int_mul_of_fits hfit]

theorem matrix_ref.cell_returns (g : matrix_ref) (i j : Int) (hi0 : 0 ≤ i)
    (hi : i < g.height_) (hj0 : 0 ≤ j) (hj : j < g.width_) :
    g.cell i j = .ok (g.ptr_.add (int_mul i g.stride_ + j)) := by
  unfold matrix_ref.cell
  rw [matrix_ref.row_of_inside g i hi0 hi]
  show vector_ref.operator_index _ j = _
  rw [vector_ref.element_of_inside _ j hj0 hj, pointer.add_add]

theorem matrix_ref.cell_of_inside (g : matrix_ref) (i j : Int) (hi0 : 0 ≤ i)
    (hi : i < g.height_) (hj0 : 0 ≤ j) (hj : j < g.width_)
    (hfit : in_int (i * g.stride_)) :
    g.cell i j = .ok (g.ptr_.add (i * g.stride_ + j)) := by
  rw [matrix_ref.cell_returns g i j hi0 hi hj0 hj, int_mul_of_fits hfit]

/-- C1: for a grid view with fields (height, width, stride, base) and a
coordinate (i, j) inside it whose row product `i*stride` is an `int` value,
`grid[i]` is the sequence view of length `width` at `base + i*stride`, and
`grid[i][j]` is the element `data()[i*stride + j]`; the same holds for an
owning grid read through its own store. -/
theorem C1_index_is_flat_offset (g : matrix_ref) (i j : Int)
    (hi0 : 0 ≤ i) (hi : i < g.height) (hj0 : 0 ≤ j) (hj : j < g.width)
    (hfit : in_int (i * g.stride)) :
    g.operator_index i = .ok ⟨g.width, g.data.add (i * g.stride)⟩ ∧
    g.cell i j = .ok (g.data.add (i * g.stride + j)) ∧
    (∀ (T : Type) (mem : memory T),
      g.read mem i j = load mem (g.data.add (i * g.stride + j))) ∧
    (∀ (T : Type) (M : matrix T), M.tomatrix_ref = g →
      M.get i j = load M.v.mem (M.data.add (i * M.stride + j))) := by
  have hc := matrix_ref.cell_of_inside g i j hi0 hi hj0 hj hfit
  refine ⟨matrix_ref.row_of_fit g i hi0 hi hfit, hc, ?_, ?_⟩
  · intro T mem
    simp only [matrix_ref.read, hc]
    rfl
  · intro T M hM
    subst hM
    simp only [matrix.get, matrix_ref.read, hc]
    rfl

/-- C1 at the view (2, 3, 5, base) and the coordinate (1, 2): flat index 7. -/
theorem C1_index_is_flat_offset_witness :
    (⟨2, 3, 5, ⟨7, 0⟩⟩ : matrix_ref).cell 1 2 = .ok ⟨7, 7⟩ :=
  (C1_index_is_flat_offset ⟨2, 3, 5, ⟨7, 0⟩⟩ 1 2 (by decide) (by decide) (by decide)
    (by decide) (by decide)).2.1


/-! ## Copying into the store -/

theorem std_vector.store_of_inside {T : Type} (v : std_vector T) (p : pointer) (x : T)
    (o : Nat) (hb : p.block = v.block) (ho : p.off = (o : Int)) (hlt : o < v.elems.length) :
    v.store p x = .ok { v with elems := v.elems.set o x } := by
  have h1 : (0 : Int) ≤ p.off := by omega
  have h2 : p.off < (v.elems.length : Int) := by omega
  have h3 : p.off.toNat = o := by omega
  simp [std_vector.store, hb, h1, h2, h3]

/-- What `std::copy` of `n` readable cells does to a store they fit into. -/
theorem std_copy_n_spec {T : Type} (mem : memory T) :
    ∀ (n : Nat) (first out : pointer) (v : std_vector T) (o : Nat),
      out.block = v.block → out.off = (o : Int) → o + n ≤ v.elems.length →
      (∀ k : Nat, k < n → (mem (first.add k)).isSome = true) →
      ∃ v2, std_copy_n mem n first out v = .ok v2 ∧ v2.block = v.block ∧
        v2.capacity = v.capacity ∧ v2.elems.length = v.elems.length ∧
        (∀ k : Nat, k < n → v2.elems[o + k]? = mem (first.add k)) ∧
        (∀ idx : Nat, idx < o ∨ o + n ≤ idx → v2.elems[idx]? = v.elems[idx]?) := by
  intro n
  induction n with
  | zero =>
    intro first out v o _ _ _ _
    exact ⟨v, rfl, rfl, rfl, rfl, fun k hk => absurd hk (Nat.not_lt_zero k), fun _ _ => rfl⟩
  | succ n ih =>
    intro first out v o hb ho hfit hread
    have h0 := hread 0 (Nat.succ_pos n)
    simp only [Nat.cast_zero, pointer.add_zero] at h0
    obtain ⟨x, hx⟩ := Option.isSome_iff_exists.mp h0
    have hst := std_vector.store_of_inside v out x o hb ho (by omega)
    have hread2 : ∀ k : Nat, k < n → (mem ((first.add 1).add k)).isSome = true := by
      intro k hk
      have := hread (k + 1) (by omega)
      rw [pointer.add_add]
      have e : (1 : Int) + (k : Int) = ((k + 1 : Nat) : Int) := by push_cast; ring
      rw [e]; exact this
    obtain ⟨v2, hrun, hblk, hcap, hlen, hcopied, hframe⟩ :=
      ih (first.add 1) (out.add 1) { v with elems := v.elems.set o x } (o + 1)
        (by simpa [pointer.add] using hb) (by simp [pointer.add, ho])
        (by simp only [List.length_set]; omega) hread2
    refine ⟨v2, ?_, hblk, hcap, ?_, ?_, ?_⟩
    · simp only [std_copy_n, load, hx, hst, bind, Except.bind]
      exact hrun
    · simpa using hlen
    · intro k hk
      cases k with
      | zero =>
        simp only [Nat.add_zero, Nat.cast_zero, pointer.add_zero, hx]
        rw [hframe o (Or.inl (Nat.lt_succ_self o))]
        simp [show o < v.elems.length by omega]
      | succ k =>
        have := hcopied k (by omega)
        rw [pointer.add_add] at this
        have e : (1 : Int) + (k : Int) = ((k + 1 : Nat) : Int) := by push_cast; ring
        rw [e] at this
        rw [← this]
        congr 1
        omega
    · intro idx hidx
      rw [hframe idx (by omega)]
      simp only
      rw [List.getElem?_set_ne]
      omega


/-- What the row loop does when it runs on a grid that has the dimensions of
the readable view `b`, with its base at the start of a store of
`height * stride` elements. -/
theorem matrix.copy_rows_spec {T : Type} (mem : memory T) (b : matrix_ref)
    (hw0 : 0 ≤ b.width_) (hws : b.width_ ≤ b.stride_) (hv : b.valid mem)
    (hfit : b.height_ * b.stride_ ≤ INT_MAX) :
    ∀ (n : Nat) (i : Int) (m : matrix T), 0 ≤ i → i + n = b.height_ →
      m.tomatrix_ref = ⟨b.height_, b.width_, b.stride_, ⟨m.v.block, 0⟩⟩ →
      (m.v.elems.length : Int) = b.height_ * b.stride_ →
      ∃ m2, matrix.copy_rows mem b n i m = .ok m2 ∧
        m2.tomatrix_ref = m.tomatrix_ref ∧ m2.v.block = m.v.block ∧
        m2.v.capacity = m.v.capacity ∧ m2.v.elems.length = m.v.elems.length ∧
        (∀ r c : Int, i ≤ r → r < b.height_ → 0 ≤ c → c < b.width_ →
          m2.v.elems[(r * b.stride_ + c).toNat]? = mem (b.ptr_.add (r * b.stride_ + c))) ∧
        (∀ idx : Nat, (idx : Int) < i * b.stride_ → m2.v.elems[idx]? = m.v.elems[idx]?) := by
  intro n
  induction n with
  | zero =>
    intro i m _ hin _ _
    refine ⟨m, rfl, rfl, rfl, rfl, rfl, ?_, fun _ _ => rfl⟩
    intro r c hr hrh _ _
    simp only [Nat.cast_zero, Int.add_zero] at hin
    omega
  | succ n ih =>
    intro i m hi0 hin href hlen
    have hih : i < b.height_ := by push_cast at hin; omega
    obtain ⟨hb0, hb1, hb2⟩ := flat_index_bounds hi0 hih hw0 hws
    have hexp : (i + 1) * b.stride_ = i * b.stride_ + b.stride_ := by ring
    have hrow : in_int (i * b.stride_) := row_offset_fits hi0 hih (le_trans hw0 hws) hfit
    have hsrc := matrix_ref.row_of_fit b i hi0 hih hrow
    have hdst : m.tomatrix_ref.operator_index i =
        .ok ⟨b.width_, (⟨m.v.block, 0⟩ : pointer).add (i * b.stride_)⟩ := by
      rw [href]
      exact matrix_ref.row_of_fit _ i hi0 hih hrow
    obtain ⟨v2, hrun, hblk, hcap, hlen2, hcopied, hframe⟩ :=
      std_copy_n_spec mem b.width_.toNat (b.ptr_.add (i * b.stride_))
        ((⟨m.v.block, 0⟩ : pointer).add (i * b.stride_)) m.v (i * b.stride_).toNat rfl
        (by simp only [pointer.add]; omega) (by omega)
        (by
          intro k hk
          rw [pointer.add_add]
          exact hv i k hi0 hih (by omega) (by omega))
    obtain ⟨m2, hrun2, href2, hblk2, hcap2, hlen3, hrows, hframe2⟩ :=
      ih (i + 1) { m with v := v2 } (by omega) (by push_cast at hin; omega)
        (by simp only [hblk]; exact href) (by simp only [hlen2]; exact hlen)
    refine ⟨m2, ?_, href2, by rw [hblk2]; exact hblk, by rw [hcap2]; exact hcap,
      by rw [hlen3]; exact hlen2, ?_, ?_⟩
    · have hnn : ¬ b.width_ < 0 := by omega
      simp only [matrix.copy_rows, hsrc, hdst, bind, Except.bind, std_copy, matrix_ref.width,
        vector_ref.data, hnn, if_false, hrun]
      exact hrun2
    · intro r c hr hrh hc0 hc
      by_cases hri : r = i
      · subst hri
        rw [hframe2 _ (by omega)]
        have hk := hcopied c.toNat (by omega)
        rw [pointer.add_add] at hk
        have e1 : (r * b.stride_).toNat + c.toNat = (r * b.stride_ + c).toNat := by omega
        have e2 : r * b.stride_ + ((c.toNat : Nat) : Int) = r * b.stride_ + c := by omega
        rw [e1, e2] at hk
        exact hk
      · exact hrows r c (by omega) hrh hc0 hc
    · intro idx hidx
      rw [hframe2 idx (by omega)]
      exact hframe idx (Or.inl (by omega))


/-! ## Resizing -/

theorem std_vector.length_resize {T : Type} [Inhabited T] (v : std_vector T) (n : Nat) :
    (v.resize n).elems.length = n := by
  unfold std_vector.resize
  split
  · simp only [List.length_take]; omega
  · split <;> simp only [List.length_append, List.length_replicate] <;> omega

/-- `resize` returns when the `int` product it computes is not negative. -/
theorem matrix.resize_of_int_mul {T : Type} [Inhabited T] (m : matrix T) (h w s : Int)
    (hn : 0 ≤ int_mul h s) :
    m.resize h w s = .ok ⟨⟨h, w, s, (m.v.resize (int_mul h s).toNat).data⟩,
      m.v.resize (int_mul h s).toNat⟩ := by
  have : ¬ int_mul h s < 0 := by omega
  simp [matrix.resize, this]

theorem matrix.resize_of_nonneg {T : Type} [Inhabited T] (m : matrix T) (h w s : Int)
    (hn : 0 ≤ h * s) (hfit : h * s ≤ INT_MAX) :
    m.resize h w s =
      .ok ⟨⟨h, w, s, (m.v.resize (h * s).toNat).data⟩, m.v.resize (h * s).toNat⟩ := by
  have hmul := int_mul_of_fits (in_int_of_bounds hn hfit)
  have := matrix.resize_of_int_mul m h w s (by rw [hmul]; exact hn)
  rw [hmul] at this
  exact this

theorem matrix.bases_default_eq {T : Type} [Inhabited T] :
    (matrix.bases_default : Except fault (matrix T)) =
      .ok { tomatrix_ref := matrix_ref.ctor_default, v := ⟨[], 0, 1⟩ } := by
  simp [matrix.bases_default, std_vector.ctor, bind, Except.bind, pure, Except.pure]

/-- Resizing to a readable view `A` and then running the row loop gives a grid
with the three dimensions of `A`, its base at the start of a store of
`height * stride` elements, and the values of `A` in its logical cells. -/
theorem matrix.resize_then_copy_rows {T : Type} [Inhabited T] (mem : memory T)
    (A : matrix_ref) (m0 : matrix T) (hh : 0 ≤ A.height_) (hw : 0 ≤ A.width_)
    (hs : A.width_ ≤ A.stride_) (hv : A.valid mem)
    (hfit : A.height_ * A.stride_ ≤ INT_MAX) :
    ∃ B : matrix T,
      (m0.resize_ref A >>= fun m => matrix.copy_rows mem A A.height.toNat 0 m) = .ok B ∧
      B.tomatrix_ref = ⟨A.height_, A.width_, A.stride_, B.v.data⟩ ∧
      (B.v.elems.length : Int) = A.height_ * A.stride_ ∧
      ∀ i j : Int, 0 ≤ i → i < A.height_ → 0 ≤ j → j < A.width_ →
        ∃ x, A.read mem i j = .ok x ∧ B.get i j = .ok x := by
  have hprod : 0 ≤ A.height_ * A.stride_ := mul_nonneg hh (le_trans hw hs)
  have hres := matrix.resize_of_nonneg m0 A.height_ A.width_ A.stride_ hprod hfit
  obtain ⟨B, hrun, href, hblk, _, hlen, hrows, _⟩ :=
    matrix.copy_rows_spec mem A hw hs hv hfit A.height_.toNat 0
      ⟨⟨A.height_, A.width_, A.stride_, (m0.v.resize (A.height_ * A.stride_).toNat).data⟩,
        m0.v.resize (A.height_ * A.stride_).toNat⟩
      (le_refl 0) (by omega) rfl
      (by simp only [std_vector.length_resize]; omega)
  have hB : B.tomatrix_ref = ⟨A.height_, A.width_, A.stride_, B.v.data⟩ := by
    rw [href]
    simp only [std_vector.data, hblk]
  refine ⟨B, ?_, hB, ?_, ?_⟩
  · simp only [matrix.resize_ref, matrix_ref.height, matrix_ref.width, matrix_ref.stride, hres,
      bind, Except.bind]
    exact hrun
  · rw [hlen]; simp only [std_vector.length_resize]; omega
  · intro i j hi0 hi hj0 hj
    obtain ⟨hb0, hb1, hb2⟩ := flat_index_bounds hi0 hi hw hs
    have hcell := hrows i j hi0 hi hj0 hj
    obtain ⟨x, hx⟩ := Option.isSome_iff_exists.mp (hv i j hi0 hi hj0 hj)
    have hrow : in_int (i * A.stride_) := row_offset_fits hi0 hi (le_trans hw hs) hfit
    refine ⟨x, ?_, ?_⟩
    · simp only [matrix_ref.read, matrix_ref.cell_of_inside A i j hi0 hi hj0 hj hrow, bind,
        Except.bind, load, hx]
    · have hc : B.tomatrix_ref.cell i j = .ok (B.v.data.add (A.stride_ * 0 + (i * A.stride_ + j))) := by
        rw [hB]
        have := matrix_ref.cell_of_inside ⟨A.height_, A.width_, A.stride_, B.v.data⟩ i j
          hi0 hi hj0 hj hrow
        simpa using this
      have hnn : (0 : Int) ≤ i * A.stride_ + j := by omega
      simp only [matrix.get, matrix_ref.read, hc, bind, Except.bind, load, std_vector.mem,
        std_vector.data, pointer.add, Int.mul_zero, Int.zero_add, hnn, and_self, if_true, hcell]
      rw [show (⟨A.ptr_.block, A.ptr_.off + (i * A.stride_ + j)⟩ : pointer) =
        A.ptr_.add (i * A.stride_ + j) from rfl, hx]

theorem example_view_valid : example_view.valid example_memory := by
  intro i j hi0 hi hj0 hj
  have hi2 : i < 2 := hi
  have hj2 : j < 3 := hj
  have h1 : (0 : Int) ≤ i * 5 + j := by omega
  have h2 : i * 5 + j < 10 := by omega
  simp [example_view, example_memory, pointer.add, h1, h2]

/-- The copy constructor from a grid view `A` with `stride ≥ width ≥ 0`,
`height ≥ 0`, readable cells and a `height * stride` that is an `int` value
returns a grid `B` with the three dimensions of `A`, on a store of
`height * stride` elements, in which every `B[i][j]` reads the value of
`A[i][j]`. -/
theorem matrix.ctor_ref_round_trip {T : Type} [Inhabited T] (mem : memory T)
    (A : matrix_ref) (hh : 0 ≤ A.height) (hw : 0 ≤ A.width) (hs : A.width ≤ A.stride)
    (hv : A.valid mem) (hfit : A.height * A.stride ≤ INT_MAX) :
    ∃ B : matrix T, matrix.ctor_ref mem A = .ok B ∧
      B.height = A.height ∧ B.width = A.width ∧ B.stride = A.stride ∧
      (B.v.size : Int) = A.height * A.stride ∧
      ∀ i j : Int, 0 ≤ i → i < A.height → 0 ≤ j → j < A.width →
        ∃ x, A.read mem i j = .ok x ∧ B.get i j = .ok x := by
  obtain ⟨B, hrun, href, hlen, hcells⟩ :=
    matrix.resize_then_copy_rows mem A ⟨matrix_ref.ctor_default, ⟨[], 0, 1⟩⟩ hh hw hs hv hfit
  refine ⟨B, ?_, by simp [matrix_ref.height, href], by simp [matrix_ref.width, href],
    by simp [matrix_ref.stride, href], hlen, hcells⟩
  simp only [matrix.ctor_ref, matrix.bases_default_eq]
  exact hrun

/-- C2, evaluated where the code departs from it: for the padded 2 x 3 view of
stride 5 the copy constructor returns a grid with the height and the width of
the view whose cells read the values of the view, while copy assignment of
the same view to an existing owning grid has no instantiation. -/
theorem C2_assignment_from_view_ill_formed :
    example_grid.assign_ref example_memory example_view = .error .ill_formed ∧
    ∃ B : matrix Int, matrix.ctor_ref example_memory example_view = .ok B ∧
      B.height = example_view.height ∧ B.width = example_view.width ∧
      ∀ i j : Int, 0 ≤ i → i < example_view.height → 0 ≤ j → j < example_view.width →
        ∃ x, example_view.read example_memory i j = .ok x ∧ B.get i j = .ok x := by
  refine ⟨rfl, ?_⟩
  obtain ⟨B, hrun, h1, h2, _, _, hcells⟩ := matrix.ctor_ref_round_trip example_memory
    example_view (by decide) (by decide) (by decide) example_view_valid (by decide)
  exact ⟨B, hrun, h1, h2, hcells⟩

/-- C3, refuted as stated: copy construction from a view of width 3 and stride
5 gives a destination of stride 5, not a tightly packed one of stride 3. -/
theorem C3_counterexample :
    ∃ B : matrix Int, matrix.ctor_ref example_memory example_view = .ok B ∧
      B.width = 3 ∧ B.stride = 5 ∧ B.stride ≠ B.width :=
  ⟨⟨⟨2, 3, 5, ⟨2, 0⟩⟩, ⟨[100, 101, 102, 0, 0, 105, 106, 107, 0, 0], 10, 2⟩⟩,
    by decide, by decide, by decide, by decide⟩

/-- C3, amended: copy construction from a grid view `src` (readable,
`height ≥ 0`, `stride ≥ width ≥ 0`, `height * stride` an `int` value) gives a
destination with the width and the stride of `src`: `dst.stride() =
src.stride()` and `dst.width() = src.width()`. -/
theorem C3_copy_from_view_keeps_stride {T : Type} [Inhabited T] (mem : memory T)
    (src : matrix_ref) (hh : 0 ≤ src.height) (hw : 0 ≤ src.width)
    (hs : src.width ≤ src.stride) (hv : src.valid mem)
    (hfit : src.height * src.stride ≤ INT_MAX) :
    ∃ dst : matrix T, matrix.ctor_ref mem src = .ok dst ∧
      dst.stride = src.stride ∧ dst.width = src.width := by
  obtain ⟨B, hrun, href, _, _⟩ :=
    matrix.resize_then_copy_rows mem src ⟨matrix_ref.ctor_default, ⟨[], 0, 1⟩⟩ hh hw hs hv hfit
  refine ⟨B, ?_, by simp [matrix_ref.stride, href], by simp [matrix_ref.width, href]⟩
  simp only [matrix.ctor_ref, matrix.bases_default_eq]
  exact hrun

/-- C3 amended, at the view of width 3 and stride 5. -/
theorem C3_copy_from_view_keeps_stride_witness :
    ∃ dst : matrix Int, matrix.ctor_ref example_memory example_view = .ok dst ∧
      dst.stride = example_view.stride ∧ dst.width = example_view.width :=
  C3_copy_from_view_keeps_stride example_memory example_view (by decide) (by decide)
    (by decide) example_view_valid (by decide)

/-! ## Copying from an owning grid -/

/-- Resizing to the dimensions of a grid `src` that satisfies the storage-size
invariant and then copying its whole store gives the dimensions and the
elements of `src`. -/
theorem matrix.resize_then_copy_store {T : Type} [Inhabited T] (m0 src : matrix T)
    (hinv : src.size_inv) :
    ∃ d : matrix T,
      (m0.resize_ref src.tomatrix_ref >>= fun m =>
        m.v.copy_from src.v >>= fun v => pure { m with v := v }) = .ok d ∧
      d.height_ = src.height_ ∧ d.width_ = src.width_ ∧ d.stride_ = src.stride_ ∧
      d.v.elems = src.v.elems ∧ d.base_inv := by
  have hinv2 : (src.v.elems.length : Int) = int_mul src.height_ src.stride_ := hinv
  have hprod : 0 ≤ int_mul src.height_ src.stride_ := by
    rw [← hinv2]; exact Int.ofNat_nonneg _
  have hn : (int_mul src.height_ src.stride_).toNat = src.v.elems.length := by
    rw [← hinv2]; simp
  have hres := matrix.resize_of_int_mul m0 src.height_ src.width_ src.stride_ hprod
  have hlen := std_vector.length_resize m0.v src.v.elems.length
  refine ⟨⟨⟨src.height_, src.width_, src.stride_, (m0.v.resize src.v.elems.length).data⟩,
    { (m0.v.resize src.v.elems.length) with elems := src.v.elems }⟩, ?_, rfl, rfl, rfl, rfl,
    rfl⟩
  simp only [matrix.resize_ref, matrix_ref.height, matrix_ref.width, matrix_ref.stride, hres,
    hn, bind, Except.bind, std_vector.copy_from, hlen, le_refl, if_true, pure, Except.pure]
  rw [List.drop_of_length_le (le_of_eq hlen), List.append_nil]

theorem std_vector.resize_same {T : Type} [Inhabited T] (v : std_vector T) :
    v.resize v.elems.length = v := by
  simp [std_vector.resize]

/-- Assigning a grid that satisfies the storage-size invariant to itself
returns it with its dimensions and its store as they were. -/
theorem matrix.assign_self {T : Type} [Inhabited T] (src : matrix T) (hinv : src.size_inv) :
    src.assign src = .ok { src with ptr_ := src.v.data } := by
  have hinv2 : (src.v.elems.length : Int) = int_mul src.height_ src.stride_ := hinv
  have hprod : 0 ≤ int_mul src.height_ src.stride_ := by
    rw [← hinv2]; exact Int.ofNat_nonneg _
  have hn : (int_mul src.height_ src.stride_).toNat = src.v.elems.length := by
    rw [← hinv2]; simp
  have hres := matrix.resize_of_int_mul src src.height_ src.width_ src.stride_ hprod
  rw [hn, std_vector.resize_same] at hres
  simp [matrix.assign, matrix.resize_ref, matrix_ref.height, matrix_ref.width,
    matrix_ref.stride, hres, bind, Except.bind, std_vector.copy_from, pure, Except.pure]

/-- C4: copying from an owning grid `src` (one whose store holds
`height * stride` elements), by the copy constructor or by copy assignment to
any existing owning grid, gives a destination with the height, width and
stride of `src` and a store of the same length that agrees with the store of
`src` at every flat index, padding included.  The source is an argument that
the operation only reads; when it is the destination itself, its dimensions
and its store come out as they were. -/
theorem C4_copy_from_owning_grid {T : Type} [Inhabited T] (m0 src : matrix T)
    (hinv : src.size_inv) :
    (∃ d : matrix T, matrix.ctor_copy src = .ok d ∧
      d.height = src.height ∧ d.width = src.width ∧ d.stride = src.stride ∧
      d.v.size = src.v.size ∧
      ∀ k : Nat, (k : Int) < src.height * src.stride → d.v.elems[k]? = src.v.elems[k]?) ∧
    (∃ d : matrix T, m0.assign src = .ok d ∧
      d.height = src.height ∧ d.width = src.width ∧ d.stride = src.stride ∧
      d.v.size = src.v.size ∧
      ∀ k : Nat, (k : Int) < src.height * src.stride → d.v.elems[k]? = src.v.elems[k]?) ∧
    (∃ d : matrix T, src.assign src = .ok d ∧
      d.height = src.height ∧ d.width = src.width ∧ d.stride = src.stride ∧
      d.v = src.v) := by
  refine ⟨?_, ?_, ⟨_, matrix.assign_self src hinv, rfl, rfl, rfl, rfl⟩⟩
  · obtain ⟨d, hrun, h1, h2, h3, h4, _⟩ :=
      matrix.resize_then_copy_store ⟨matrix_ref.ctor_default, ⟨[], 0, 1⟩⟩ src hinv
    refine ⟨d, ?_, h1, h2, h3, by simp [std_vector.size, h4], fun k _ => by rw [h4]⟩
    simp only [matrix.ctor_copy, matrix.bases_default_eq]
    exact hrun
  · obtain ⟨d, hrun, h1, h2, h3, h4, _⟩ := matrix.resize_then_copy_store m0 src hinv
    exact ⟨d, hrun, h1, h2, h3, by simp [std_vector.size, h4], fun k _ => by rw [h4]⟩

/-- C4 at the 2 x 1 grid of stride 2 holding 1, 2, 3, 4. -/
theorem C4_copy_from_owning_grid_witness :
    ∃ d : matrix Int, matrix.ctor_copy example_grid = .ok d ∧
      d.height = example_grid.height ∧ d.width = example_grid.width ∧
      d.stride = example_grid.stride ∧ d.v.size = example_grid.v.size ∧
      ∀ k : Nat, (k : Int) < example_grid.height * example_grid.stride →
        d.v.elems[k]? = example_grid.v.elems[k]? :=
  (C4_copy_from_owning_grid example_grid example_grid (by decide)).1

/-! ## Construction and resizing -/

/-- The constructor returns when the `int` product it computes is not
negative. -/
theorem matrix.ctor_of_int_mul (T : Type) [Inhabited T] (h w s : Int)
    (hn : 0 ≤ int_mul h s) :
    (matrix.ctor h w s : Except fault (matrix T)) =
      .ok ⟨⟨h, w, s, ⟨1, 0⟩⟩,
        ⟨List.replicate (int_mul h s).toNat default, (int_mul h s).toNat, 1⟩⟩ := by
  have : ¬ int_mul h s < 0 := by omega
  simp [matrix.ctor, std_vector.ctor, this, bind, Except.bind, pure, Except.pure,
    matrix_ref.ctor, std_vector.data]

theorem matrix.ctor_of_nonneg (T : Type) [Inhabited T] (h w s : Int) (hn : 0 ≤ h * s)
    (hfit : h * s ≤ INT_MAX) :
    (matrix.ctor h w s : Except fault (matrix T)) =
      .ok ⟨⟨h, w, s, ⟨1, 0⟩⟩, ⟨List.replicate (h * s).toNat default, (h * s).toNat, 1⟩⟩ := by
  have hmul := int_mul_of_fits (in_int_of_bounds hn hfit)
  have := matrix.ctor_of_int_mul T h w s (by rw [hmul]; exact hn)
  rw [hmul] at this
  exact this

/-- C5: for `height ≥ 0` and `stride ≥ width ≥ 0` with `height * stride` an
`int` value, the owning grid constructed from (height, width, stride) reports
exactly these three values, the one constructed from (height, width) reports
`stride() = width`, and the default-constructed one reports 0 for all
three. -/
theorem C5_constructed_dimensions (T : Type) [Inhabited T] (height width stride : Int)
    (hh : 0 ≤ height) (hw : 0 ≤ width) (hs : width ≤ stride)
    (hfit : height * stride ≤ INT_MAX) :
    (∃ m : matrix T, matrix.ctor height width stride = .ok m ∧
      m.height = height ∧ m.width = width ∧ m.stride = stride) ∧
    (∃ m : matrix T, matrix.ctor_hw height width = .ok m ∧
      m.height = height ∧ m.width = width ∧ m.stride = width) ∧
    (∃ m : matrix T, matrix.ctor_default = .ok m ∧
      m.height = 0 ∧ m.width = 0 ∧ m.stride = 0) := by
  have h3 := matrix.ctor_of_nonneg T height width stride
    (mul_nonneg hh (le_trans hw hs)) hfit
  have h2 := matrix.ctor_of_nonneg T height width width (mul_nonneg hh hw)
    (le_trans (mul_le_mul_of_nonneg_left hs hh) hfit)
  have h0 := matrix.ctor_of_nonneg T 0 0 0 (by decide) (by decide)
  exact ⟨⟨_, h3, rfl, rfl, rfl⟩, ⟨_, h2, rfl, rfl, rfl⟩, ⟨_, h0, rfl, rfl, rfl⟩⟩

/-- C5 at (3, 2, 4). -/
theorem C5_constructed_dimensions_witness :
    ∃ m : matrix Int, matrix.ctor 3 2 4 = .ok m ∧
      m.height = 3 ∧ m.width = 2 ∧ m.stride = 4 :=
  (C5_constructed_dimensions Int 3 2 4 (by decide) (by decide) (by decide) (by decide)).1

/-- C6: from any state and for any non-negative height, width and stride with
`height * stride` an `int` value, `resize(height, width, stride)` returns
with exactly these dimensions and a store of exactly `height * stride`
elements; `resize(height, width)` is `resize(height, width, width)`;
`resize(2, 2)` followed by `resize(5, 5)` ends with height, width and
stride 5. -/
theorem C6_resize_dimensions {T : Type} [Inhabited T] (m : matrix T)
    (height width stride : Int) (hh : 0 ≤ height) (hw : 0 ≤ width) (hs : 0 ≤ stride)
    (hfit : height * stride ≤ INT_MAX) :
    (∃ m2 : matrix T, m.resize height width stride = .ok m2 ∧
      m2.height = height ∧ m2.width = width ∧ m2.stride = stride ∧
      (m2.v.size : Int) = height * stride) ∧
    m.resize_hw height width = m.resize height width width ∧
    (∃ m1 m2 : matrix T, m.resize_hw 2 2 = .ok m1 ∧ m1.resize_hw 5 5 = .ok m2 ∧
      m2.height = 5 ∧ m2.width = 5 ∧ m2.stride = 5) := by
  have hp := mul_nonneg hh (le_trans (le_refl 0) hs)
  have _hwidth := hw
  have h1 := matrix.resize_of_nonneg m height width stride hp hfit
  have h2 := matrix.resize_of_nonneg m 2 2 2 (by decide) (by decide)
  have h5 := matrix.resize_of_nonneg
    (⟨⟨2, 2, 2, (m.v.resize (2 * 2 : Int).toNat).data⟩, m.v.resize (2 * 2 : Int).toNat⟩ : matrix T)
    5 5 5 (by decide) (by decide)
  refine ⟨⟨_, h1, rfl, rfl, rfl, ?_⟩, rfl, ⟨_, _, h2, h5, rfl, rfl, rfl⟩⟩
  simp only [std_vector.size, std_vector.length_resize]
  omega

/-- C6 at the grid holding 1, 2, 3, 4, resized to (3, 2, 4). -/
theorem C6_resize_dimensions_witness :
    ∃ m2 : matrix Int, example_grid.resize 3 2 4 = .ok m2 ∧
      m2.height = 3 ∧ m2.width = 2 ∧ m2.stride = 4 ∧ (m2.v.size : Int) = 3 * 4 :=
  (C6_resize_dimensions example_grid 3 2 4 (by decide) (by decide) (by decide)
    (by decide)).1


/-! ## Clamped access -/

/-- C7: in a grid with `height > 0` and `width > 0`, `clamp_get(i, j)` for any
integers `i`, `j` passes both bounds assertions and returns `grid[i2][j2]`
with `i2 = min(max(i, 0), height - 1)` and `j2 = min(max(j, 0), width - 1)`,
the element `data()[i2*stride + j2]` when the row product `i2*stride` is an
`int` value; so it equals `clamp_get(i2, j2)`, and equals `grid[i][j]` when
`(i, j)` is inside the grid. -/
theorem C7_clamp_get_saturates (g : matrix_ref) (i j : Int) (hh : 0 < g.height)
    (hw : 0 < g.width) (hfit : in_int (min (max i 0) (g.height - 1) * g.stride)) :
    (∃ p, g.clamp_get i j = .ok p ∧
      g.cell (min (max i 0) (g.height - 1)) (min (max j 0) (g.width - 1)) = .ok p ∧
      p = g.data.add (min (max i 0) (g.height - 1) * g.stride + min (max j 0) (g.width - 1))) ∧
    g.clamp_get i j =
      g.clamp_get (min (max i 0) (g.height - 1)) (min (max j 0) (g.width - 1)) ∧
    (g.is_inside i j = true → g.clamp_get i j = g.cell i j) ∧
    (∀ (T : Type) (mem : memory T), (g.clamp_get i j >>= load mem) =
      g.read mem (min (max i 0) (g.height - 1)) (min (max j 0) (g.width - 1))) := by
  have hh2 : 0 < g.height_ := hh
  have hw2 : 0 < g.width_ := hw
  simp only [matrix_ref.height, matrix_ref.width, matrix_ref.stride, matrix_ref.data]
  have hclamp : ∀ a b : Int, g.clamp_get a b =
      g.cell (min (max a 0) (g.height_ - 1)) (min (max b 0) (g.width_ - 1)) := fun _ _ => rfl
  have hcell := matrix_ref.cell_of_inside g (min (max i 0) (g.height_ - 1))
    (min (max j 0) (g.width_ - 1)) (by omega) (by omega) (by omega) (by omega) hfit
  refine ⟨⟨_, (hclamp i j).trans hcell, hcell, rfl⟩, ?_, ?_, ?_⟩
  · rw [hclamp i j, hclamp]
    have e1 : min (max (min (max i 0) (g.height_ - 1)) 0) (g.height_ - 1) =
        min (max i 0) (g.height_ - 1) := by omega
    have e2 : min (max (min (max j 0) (g.width_ - 1)) 0) (g.width_ - 1) =
        min (max j 0) (g.width_ - 1) := by omega
    rw [e1, e2]
  · intro hin
    simp only [matrix_ref.is_inside, Bool.and_eq_true, decide_eq_true_eq] at hin
    have e1 : min (max i 0) (g.height_ - 1) = i := by omega
    have e2 : min (max j 0) (g.width_ - 1) = j := by omega
    rw [hclamp i j, e1, e2]
  · intro T mem
    rw [hclamp i j]
    rfl

/-- C7 at the 2 x 3 view and the coordinate (-3, 9), clamped to (0, 2). -/
theorem C7_clamp_get_saturates_witness :
    example_view.clamp_get (-3) 9 = example_view.clamp_get 0 2 :=
  (C7_clamp_get_saturates example_view (-3) 9 (by decide) (by decide) (by decide)).2.1

/-! ## Emptying -/

theorem std_vector.resize_zero {T : Type} [Inhabited T] (v : std_vector T) :
    v.resize 0 = { v with elems := [] } := by
  simp [std_vector.resize]

theorem matrix.clear_and_shrink_eq {T : Type} [Inhabited T] (m : matrix T) :
    m.clear_and_shrink = .ok ⟨⟨0, 0, 0, ⟨m.v.block, 0⟩⟩,
      ⟨[], 0, if 0 < m.v.capacity then m.v.block + 1 else m.v.block⟩⟩ := by
  have hres := matrix.resize_of_nonneg m 0 0 0 (by decide) (by decide)
  have hz : ((0 : Int) * 0).toNat = 0 := by decide
  rw [hz, std_vector.resize_zero] at hres
  simp only [matrix.clear_and_shrink, matrix.resize_hw, hres, bind, Except.bind, pure,
    Except.pure, std_vector.shrink_to_fit, std_vector.data, List.length_nil]
  by_cases hc : 0 < m.v.capacity
  · simp [hc]
  · have : m.v.capacity = 0 := by omega
    simp [this]

/-- C8: from any state, `clear_and_shrink()` returns with height, width and
stride 0 and an empty store without capacity, the logical state of a
default-constructed grid; a second `clear_and_shrink()` returns as well and
leaves that logical state, and the store, as the first one left it. -/
theorem C8_clear_and_shrink_idempotent {T : Type} [Inhabited T] (m : matrix T) :
    ∃ m1 : matrix T, m.clear_and_shrink = .ok m1 ∧
      m1.height = 0 ∧ m1.width = 0 ∧ m1.stride = 0 ∧ m1.v.size = 0 ∧ m1.v.capacity = 0 ∧
      (∃ d : matrix T, matrix.ctor_default = .ok d ∧ m1.logical_state = d.logical_state) ∧
      ∃ m2 : matrix T, m1.clear_and_shrink = .ok m2 ∧
        m2.logical_state = m1.logical_state ∧ m2.v = m1.v := by
  refine ⟨_, matrix.clear_and_shrink_eq m, rfl, rfl, rfl, rfl, rfl,
    ⟨_, matrix.ctor_of_nonneg T 0 0 0 (by decide) (by decide), rfl⟩,
    ⟨_, matrix.clear_and_shrink_eq _, rfl, ?_⟩⟩
  simp

/-! ## Bounds assertions -/

theorem vector_ref.element_of_outside (v : vector_ref) (k : Int)
    (h : ¬ (0 ≤ k ∧ k < v.size_)) : v.operator_index k = .error .assertion := by
  have hb : v.is_inside k = false := by
    simp only [vector_ref.is_inside, Bool.and_eq_false_iff, decide_eq_false_iff_not]
    by_cases h0 : 0 ≤ k
    · exact Or.inr (fun h1 => h ⟨h0, h1⟩)
    · exact Or.inl h0
  simp [vector_ref.operator_index, hb]

theorem matrix_ref.row_of_outside (g : matrix_ref) (i : Int)
    (h : ¬ (0 ≤ i ∧ i < g.height_)) : g.operator_index i = .error .assertion := by
  simp only [matrix_ref.operator_index, if_neg h]

/-- C9: with a failed assertion as the fault, `grid[i][j]` returns exactly
when `is_inside(i, j)`; the row step faults exactly when `i` is outside
`[0, height)`, the element step exactly when `i` is in range and `j` is
outside `[0, width)`; and `v[k]` on a sequence view returns exactly when
`0 ≤ k < v.size()`. -/
theorem C9_access_succeeds_iff_inside (g : matrix_ref) (i j : Int) (v : vector_ref)
    (k : Int) :
    ((∃ p, g.cell i j = .ok p) ↔ g.is_inside i j = true) ∧
    (g.operator_index i = .error .assertion ↔ ¬ (0 ≤ i ∧ i < g.height)) ∧
    ((∃ row, g.operator_index i = .ok row ∧ row.operator_index j = .error .assertion) ↔
      (0 ≤ i ∧ i < g.height) ∧ ¬ (0 ≤ j ∧ j < g.width)) ∧
    ((∃ p, v.operator_index k = .ok p) ↔ 0 ≤ k ∧ k < v.size) := by
  simp only [matrix_ref.height, matrix_ref.width, vector_ref.size]
  have hin : g.is_inside i j = true ↔ (0 ≤ i ∧ i < g.height_) ∧ (0 ≤ j ∧ j < g.width_) := by
    simp only [matrix_ref.is_inside, Bool.and_eq_true, decide_eq_true_eq, and_assoc]
  refine ⟨?_, ?_, ?_, ?_⟩
  · rw [hin]
    by_cases hi : 0 ≤ i ∧ i < g.height_
    · by_cases hj : 0 ≤ j ∧ j < g.width_
      · exact ⟨fun _ => ⟨hi, hj⟩,
          fun _ => ⟨_, matrix_ref.cell_returns g i j hi.1 hi.2 hj.1 hj.2⟩⟩
      · have hc : g.cell i j = .error .assertion := by
          unfold matrix_ref.cell
          rw [matrix_ref.row_of_inside g i hi.1 hi.2]
          exact vector_ref.element_of_outside ⟨g.width_, _⟩ j hj
        rw [hc]
        exact ⟨fun ⟨p, hp⟩ => (by cases hp), fun h => absurd h.2 hj⟩
    · have hc : g.cell i j = .error .assertion := by
        unfold matrix_ref.cell
        rw [matrix_ref.row_of_outside g i hi]
        rfl
      rw [hc]
      exact ⟨fun ⟨p, hp⟩ => (by cases hp), fun h => absurd h.1 hi⟩
  · by_cases hi : 0 ≤ i ∧ i < g.height_
    · rw [matrix_ref.row_of_inside g i hi.1 hi.2]
      exact ⟨fun h => (by cases h), fun h => absurd hi h⟩
    · exact ⟨fun _ => hi, fun _ => matrix_ref.row_of_outside g i hi⟩
  · by_cases hi : 0 ≤ i ∧ i < g.height_
    · rw [matrix_ref.row_of_inside g i hi.1 hi.2]
      by_cases hj : 0 ≤ j ∧ j < g.width_
      · constructor
        · rintro ⟨row, hrow, herr⟩
          cases hrow
          rw [vector_ref.element_of_inside _ j hj.1 hj.2] at herr
          cases herr
        · exact fun h => absurd hj h.2
      · exact ⟨fun _ => ⟨hi, hj⟩,
          fun _ => ⟨_, rfl, vector_ref.element_of_outside ⟨g.width_, _⟩ j hj⟩⟩
    · rw [matrix_ref.row_of_outside g i hi]
      exact ⟨fun ⟨row, hrow, _⟩ => (by cases hrow), fun h => absurd h.1 hi⟩
  · by_cases hk : 0 ≤ k ∧ k < v.size_
    · exact ⟨fun _ => hk, fun _ => ⟨_, vector_ref.element_of_inside v k hk.1 hk.2⟩⟩
    · rw [vector_ref.element_of_outside v k hk]
      exact ⟨fun ⟨p, hp⟩ => (by cases hp), fun h => absurd h hk⟩


/-! ## Stride below width -/

/-- C10, refuted as stated: with height 1, width 2 and stride 1 the grid view
constructor, the owning grid constructor and `resize` all return a grid;
nothing faults. -/
theorem C10_counterexample :
    matrix_ref.ctor 1 2 1 ⟨7, 0⟩ = ⟨1, 2, 1, ⟨7, 0⟩⟩ ∧
    (matrix.ctor 1 2 1 : Except fault (matrix Int)) =
      .ok ⟨⟨1, 2, 1, ⟨1, 0⟩⟩, ⟨[0], 1, 1⟩⟩ ∧
    example_grid.resize 1 2 1 = .ok ⟨⟨1, 2, 1, ⟨1, 0⟩⟩, ⟨[1], 4, 1⟩⟩ := by
  decide

/-- C10, amended: no assertion compares the stride with the width.  With
`height > 0`, `width > 0`, `0 ≤ stride < width` and `height * stride` an
`int` value, constructing a grid view, constructing an owning grid and
resizing an owning grid all return a grid with exactly these dimensions, the
store of the owning grid holding `height * stride` elements. -/
theorem C10_stride_below_width_unchecked {T : Type} [Inhabited T] (m : matrix T)
    (height width stride : Int) (base : pointer) (hh : 0 < height) (hw : 0 < width)
    (hs0 : 0 ≤ stride) (hs : stride < width) (hfit : height * stride ≤ INT_MAX) :
    ((matrix_ref.ctor height width stride base).height = height ∧
      (matrix_ref.ctor height width stride base).width = width ∧
      (matrix_ref.ctor height width stride base).stride = stride ∧
      (matrix_ref.ctor height width stride base).data = base) ∧
    (∃ g : matrix T, matrix.ctor height width stride = .ok g ∧
      g.height = height ∧ g.width = width ∧ g.stride = stride ∧
      (g.v.size : Int) = height * stride) ∧
    (∃ g : matrix T, m.resize height width stride = .ok g ∧
      g.height = height ∧ g.width = width ∧ g.stride = stride ∧
      (g.v.size : Int) = height * stride) := by
  have _hwidth := hw
  have _hstride := hs
  have hp : 0 ≤ height * stride := mul_nonneg (le_of_lt hh) hs0
  have hc := matrix.ctor_of_nonneg T height width stride hp hfit
  have hr := matrix.resize_of_nonneg m height width stride hp hfit
  refine ⟨⟨rfl, rfl, rfl, rfl⟩, ⟨_, hc, rfl, rfl, rfl, ?_⟩, ⟨_, hr, rfl, rfl, rfl, ?_⟩⟩
  · simp only [std_vector.size, List.length_replicate]
    omega
  · simp only [std_vector.size, std_vector.length_resize]
    omega

/-- C10 amended, at height 1, width 2, stride 1. -/
theorem C10_stride_below_width_unchecked_witness :
    ∃ g : matrix Int, example_grid.resize 1 2 1 = .ok g ∧
      g.height = 1 ∧ g.width = 2 ∧ g.stride = 1 ∧ (g.v.size : Int) = 1 * 1 :=
  (C10_stride_below_width_unchecked example_grid 1 2 1 nullptr (by decide) (by decide)
    (by decide) (by decide) (by decide)).2.2

/-! ## The inside predicate -/

/-- C11: `is_inside(row, col)` is true exactly when `0 ≤ row < height` and
`0 ≤ col < width`.  It is a query: its only result is the boolean, and the
grid it is asked about is not returned in any changed form. -/
theorem C11_is_inside_iff (g : matrix_ref) (row col : Int) :
    g.is_inside row col = true ↔
      (0 ≤ row ∧ row < g.height) ∧ (0 ≤ col ∧ col < g.width) := by
  simp only [matrix_ref.is_inside, matrix_ref.height, matrix_ref.width, Bool.and_eq_true,
    decide_eq_true_eq, and_assoc]

/-! ## The invariants of the owning grid -/

theorem std_vector.shrink_to_fit_elems {T : Type} (v : std_vector T) :
    v.shrink_to_fit.elems = v.elems := by
  unfold std_vector.shrink_to_fit
  split <;> rfl

/-- A `shrink_to_fit()` that finds excess capacity moves the store and leaves
`data()` at the old allocation. -/
theorem matrix.shrink_to_fit_stale_base {T : Type} (m : matrix T) (hb : m.base_inv)
    (hcap : m.v.size < m.v.capacity) : ¬ m.shrink_to_fit.base_inv := by
  have hlt : m.v.elems.length < m.v.capacity := hcap
  have hb2 : m.ptr_ = ⟨m.v.block, 0⟩ := hb
  intro h
  have h2 : m.ptr_ = ⟨m.v.block + 1, 0⟩ := by
    simpa [matrix.base_inv, matrix.shrink_to_fit, std_vector.shrink_to_fit, hlt,
      matrix_ref.data, std_vector.data] using h
  rw [hb2] at h2
  have h3 := congrArg pointer.block h2
  simp at h3

/-- The constructors, `resize` and the copies from an owning grid or a view
re-derive the base and keep both invariants whenever the `int` product they
compute is not negative; `shrink_to_fit()` and `clear_and_shrink()` keep the
storage-size invariant. -/
theorem matrix.invariants_kept {T : Type} [Inhabited T] (m src : matrix T)
    (mem : memory T) (b : matrix_ref) (height width stride : Int)
    (hp : 0 ≤ int_mul height stride) (hsrc : src.size_inv)
    (hbh : 0 ≤ b.height_) (hbw : 0 ≤ b.width_) (hbs : b.width_ ≤ b.stride_)
    (hv : b.valid mem) (hfit : b.height_ * b.stride_ ≤ INT_MAX) :
    (∃ g : matrix T, matrix.ctor height width stride = .ok g ∧ g.size_inv ∧ g.base_inv) ∧
    (∃ g : matrix T, m.resize height width stride = .ok g ∧ g.size_inv ∧ g.base_inv) ∧
    (∃ g : matrix T, m.assign src = .ok g ∧ g.size_inv ∧ g.base_inv) ∧
    (∃ g : matrix T, matrix.ctor_copy src = .ok g ∧ g.size_inv ∧ g.base_inv) ∧
    (∃ g : matrix T, matrix.ctor_ref mem b = .ok g ∧ g.size_inv ∧ g.base_inv) ∧
    (m.size_inv → m.shrink_to_fit.size_inv) ∧
    (∃ g : matrix T, m.clear_and_shrink = .ok g ∧ g.size_inv) := by
  have hsrc2 : (src.v.elems.length : Int) = int_mul src.height_ src.stride_ := hsrc
  refine ⟨⟨_, matrix.ctor_of_int_mul T height width stride hp, ?_, rfl⟩,
    ⟨_, matrix.resize_of_int_mul m height width stride hp, ?_, rfl⟩, ?_, ?_, ?_, ?_,
    ⟨_, matrix.clear_and_shrink_eq m, by simp [matrix.size_inv, int_mul, wrap_int]⟩⟩
  · simp only [matrix.size_inv, List.length_replicate]
    omega
  · simp only [matrix.size_inv, std_vector.length_resize]
    omega
  · obtain ⟨d, hrun, h1, _, h3, h4, h5⟩ := matrix.resize_then_copy_store m src hsrc
    refine ⟨d, hrun, ?_, h5⟩
    simp only [matrix.size_inv, h1, h3, h4]
    exact hsrc2
  · obtain ⟨d, hrun, h1, _, h3, h4, h5⟩ :=
      matrix.resize_then_copy_store ⟨matrix_ref.ctor_default, ⟨[], 0, 1⟩⟩ src hsrc
    refine ⟨d, ?_, ?_, h5⟩
    · simp only [matrix.ctor_copy, matrix.bases_default_eq]
      exact hrun
    · simp only [matrix.size_inv, h1, h3, h4]
      exact hsrc2
  · obtain ⟨B, hrun, href, hlen, _⟩ := matrix.resize_then_copy_rows mem b
      ⟨matrix_ref.ctor_default, ⟨[], 0, 1⟩⟩ hbh hbw hbs hv hfit
    have hmul := int_mul_of_fits
      (in_int_of_bounds (mul_nonneg hbh (le_trans hbw hbs)) hfit)
    refine ⟨B, ?_, ?_, ?_⟩
    · simp only [matrix.ctor_ref, matrix.bases_default_eq]
      exact hrun
    · simp only [matrix.size_inv, hlen, href, hmul]
    · simp only [matrix.base_inv, matrix_ref.data, href]
  · intro hsz
    simp only [matrix.size_inv, matrix.shrink_to_fit, std_vector.shrink_to_fit_elems]
    exact hsz

/-- C12, evaluated where the code departs from it: after `matrix<int> m(2, 2)`,
four writes, `m.resize(1, 1)` and `m.shrink_to_fit()` the store holds
`height * stride = 1` element, but `data()` is still the start of the
allocation the store has left; the same holds after `clear_and_shrink()`. -/
theorem C12_shrink_to_fit_leaves_stale_base :
    (∃ a b : matrix Int, shrunk_grid = .ok (a, b) ∧
      (a.size_inv ∧ a.base_inv) ∧
      (b.size_inv ∧ ¬ b.base_inv) ∧
      b.data = ⟨1, 0⟩ ∧ b.v.data = ⟨2, 0⟩) ∧
    (∃ c : matrix Int, example_grid.clear_and_shrink = .ok c ∧
      c.size_inv ∧ ¬ c.base_inv ∧ c.data = ⟨1, 0⟩ ∧ c.v.data = ⟨2, 0⟩) := by
  constructor
  · exact ⟨⟨⟨1, 1, 1, ⟨1, 0⟩⟩, ⟨[1], 4, 1⟩⟩, ⟨⟨1, 1, 1, ⟨1, 0⟩⟩, ⟨[1], 1, 2⟩⟩,
      by decide, by decide, by decide, by decide, by decide⟩
  · exact ⟨⟨⟨0, 0, 0, ⟨1, 0⟩⟩, ⟨[], 0, 2⟩⟩, by decide, by decide, by decide, by decide,
      by decide⟩

/-- C13: for a grid view `b1` with non-negative height and stride and a
`height * stride` that is an `int` value, `m.resize(b1)` returns with the
height, width and stride of `b1`; its store is the old store resized to
`height * stride` elements, so no element comes from the view, and any view
`b2` with the same three dimensions gives the same result, whatever it points
to. -/
theorem C13_resize_ref_dimensions_only {T : Type} [Inhabited T] (m : matrix T)
    (b1 b2 : matrix_ref) (hh : 0 ≤ b1.height) (hs : 0 ≤ b1.stride)
    (hfit : b1.height * b1.stride ≤ INT_MAX)
    (e1 : b2.height = b1.height) (e2 : b2.width = b1.width) (e3 : b2.stride = b1.stride) :
    ∃ m2 : matrix T, m.resize_ref b1 = .ok m2 ∧
      m2.height = b1.height ∧ m2.width = b1.width ∧ m2.stride = b1.stride ∧
      m2.v = m.v.resize (b1.height * b1.stride).toNat ∧
      m.resize_ref b2 = .ok m2 := by
  have hp : 0 ≤ b1.height * b1.stride := mul_nonneg hh hs
  have hr := matrix.resize_of_nonneg m b1.height b1.width b1.stride hp hfit
  refine ⟨_, hr, rfl, rfl, rfl, rfl, ?_⟩
  simp only [matrix.resize_ref, e1, e2, e3]
  exact hr

/-- C13 at two views of dimensions (2, 3, 5) into different blocks. -/
theorem C13_resize_ref_dimensions_only_witness :
    ∃ m2 : matrix Int, example_grid.resize_ref example_view = .ok m2 ∧
      m2.height = 2 ∧ m2.width = 3 ∧ m2.stride = 5 ∧
      m2.v = example_grid.v.resize 10 ∧
      example_grid.resize_ref ⟨2, 3, 5, ⟨9, 4⟩⟩ = .ok m2 :=
  C13_resize_ref_dimensions_only example_grid example_view ⟨2, 3, 5, ⟨9, 4⟩⟩ (by decide)
    (by decide) (by decide) rfl rfl rfl

/-- C14, evaluated where the code departs from it: after `matrix<int> m(2, 2)`,
four writes and `m.resize(1, 1)`, the call `m.shrink_to_fit()` keeps height,
width, stride and the elements of the store, but `m[0][0]`, which read 1
before the call, now goes through the stale base and reads storage that no
longer exists. -/
theorem C14_shrink_to_fit_breaks_access :
    ∃ a b : matrix Int, shrunk_grid = .ok (a, b) ∧ b = a.shrink_to_fit ∧
      b.height = a.height ∧ b.width = a.width ∧ b.stride = a.stride ∧
      b.v.elems = a.v.elems ∧
      a.get 0 0 = .ok 1 ∧ b.get 0 0 = .error .undefined := by
  exact ⟨⟨⟨1, 1, 1, ⟨1, 0⟩⟩, ⟨[1], 4, 1⟩⟩, ⟨⟨1, 1, 1, ⟨1, 0⟩⟩, ⟨[1], 1, 2⟩⟩,
    by decide, by decide, by decide, by decide, by decide, by decide, by decide, by decide⟩


/-! ## Reading an owning grid through its base -/

theorem std_vector.getElem?_resize {T : Type} [Inhabited T] (v : std_vector T) (n k : Nat)
    (hk : k < n) :
    (v.resize n).elems[k]? = if k < v.elems.length then v.elems[k]? else some default := by
  unfold std_vector.resize
  by_cases h1 : n ≤ v.elems.length
  · have hkl : k < v.elems.length := by omega
    simp only [h1, if_true, hkl]
    rw [List.getElem?_take]
    simp [hk]
  · by_cases hkl : k < v.elems.length
    · have e : (v.elems ++ List.replicate (n - v.elems.length) default)[k]? = v.elems[k]? :=
        List.getElem?_append_left hkl
      by_cases h2 : n ≤ v.capacity <;> simp only [h1, h2, if_false, if_true, hkl, e]
    · have hle : v.elems.length ≤ k := by omega
      have e : (v.elems ++ List.replicate (n - v.elems.length) default)[k]? =
          some default := by
        rw [List.getElem?_append_right hle, List.getElem?_replicate]
        simp [show k - v.elems.length < n - v.elems.length by omega]
      by_cases h2 : n ≤ v.capacity <;> simp only [h1, h2, if_false, if_true, hkl, e]

/-- Reading `grid[i][j]` of an owning grid whose base is the start of its
store: the element of the store at the flat index, when there is one. -/
theorem matrix.get_of_base {T : Type} (m : matrix T) (hb : m.base_inv) (i j : Int)
    (hi0 : 0 ≤ i) (hi : i < m.height_) (hj0 : 0 ≤ j) (hj : j < m.width_)
    (hn : 0 ≤ i * m.stride_ + j) (hfit : in_int (i * m.stride_)) :
    m.get i j = match m.v.elems[(i * m.stride_ + j).toNat]? with
      | some x => .ok x
      | none => .error .undefined := by
  have hb2 : m.ptr_ = ⟨m.v.block, 0⟩ := hb
  have hc := matrix_ref.cell_of_inside m.tomatrix_ref i j hi0 hi hj0 hj hfit
  simp only [matrix.get, matrix_ref.read, hc, bind, Except.bind, load, std_vector.mem, hb2,
    pointer.add, Int.zero_add, hn, and_self, if_true]

/-- A logical cell of a grid with `0 ≤ width ≤ stride` has its flat index
inside `[0, height * stride)`. -/
theorem flat_index_inside {h w s i j : Int} (hi0 : 0 ≤ i) (hi : i < h) (hj0 : 0 ≤ j)
    (hj : j < w) (hws : w ≤ s) : 0 ≤ i * s + j ∧ i * s + j < h * s := by
  obtain ⟨h1, h2, h3⟩ := flat_index_bounds hi0 hi (by omega : (0 : Int) ≤ w) hws
  constructor <;> omega

/-- In an owning grid whose base is the start of a store of `height * stride`
elements, an `int` value, with `stride ≥ width`, every coordinate inside the
grid has its flat index `i*stride + j` in `[0, height*stride)`: the element
reference points into the store and the read returns.  With `stride < width`
in a non-empty grid, the inside coordinate `(height-1, width-1)` has a flat
index of at least `height*stride`, and its read leaves the store. -/
theorem matrix.access_inside_store {T : Type} (m : matrix T) (hb : m.base_inv)
    (hsz : m.size_inv) (hfit : in_int (m.height * m.stride)) :
    (m.width ≤ m.stride → ∀ i j : Int, 0 ≤ i → i < m.height → 0 ≤ j → j < m.width →
      (0 ≤ i * m.stride + j ∧ i * m.stride + j < m.height * m.stride) ∧
      (∃ p, m.cell i j = .ok p ∧ p.block = m.v.block ∧ p.off = i * m.stride + j ∧
        0 ≤ p.off ∧ p.off < m.v.size) ∧
      ∃ x, m.get i j = .ok x) ∧
    (m.stride < m.width → 0 < m.height → 0 < m.width →
      m.is_inside (m.height - 1) (m.width - 1) = true ∧
      m.height * m.stride ≤ (m.height - 1) * m.stride + (m.width - 1) ∧
      m.get (m.height - 1) (m.width - 1) = .error .undefined) := by
  have hb2 : m.ptr_ = ⟨m.v.block, 0⟩ := hb
  have hfit2 : in_int (m.height_ * m.stride_) := hfit
  have hsz2 : (m.v.elems.length : Int) = m.height_ * m.stride_ := by
    rw [← int_mul_of_fits hfit2]; exact hsz
  have hmax : m.height_ * m.stride_ ≤ INT_MAX := hfit2.2
  simp only [matrix_ref.height, matrix_ref.width, matrix_ref.stride, std_vector.size]
  constructor
  · intro hws i j hi0 hi hj0 hj
    obtain ⟨hf0, hf1⟩ := flat_index_inside hi0 hi hj0 hj hws
    have hrow : in_int (i * m.stride_) := row_offset_fits hi0 hi (by omega) hmax
    have hc := matrix_ref.cell_of_inside m.tomatrix_ref i j hi0 hi hj0 hj hrow
    have hlt : (i * m.stride_ + j).toNat < m.v.elems.length := by omega
    refine ⟨⟨hf0, hf1⟩, ⟨_, hc, ?_, ?_, ?_, ?_⟩, ⟨m.v.elems[(i * m.stride_ + j).toNat], ?_⟩⟩
    · simp [pointer.add, hb2]
    · simp [pointer.add, hb2]
    · simp only [pointer.add, hb2]; omega
    · simp only [pointer.add, hb2]; omega
    · rw [matrix.get_of_base m hb i j hi0 hi hj0 hj hf0 hrow, List.getElem?_eq_getElem hlt]
  · intro hsw hh hw
    have hs0 : 0 ≤ m.stride_ := by
      by_contra hneg
      have := mul_neg_of_pos_of_neg hh (by omega : m.stride_ < 0)
      omega
    have hrow : in_int ((m.height_ - 1) * m.stride_) :=
      row_offset_fits (by omega) (by omega) hs0 hmax
    have hexp : (m.height_ - 1) * m.stride_ = m.height_ * m.stride_ - m.stride_ := by ring
    have hge : m.height_ * m.stride_ ≤ (m.height_ - 1) * m.stride_ + (m.width_ - 1) := by
      omega
    refine ⟨?_, hge, ?_⟩
    · simp only [matrix_ref.is_inside, Bool.and_eq_true, decide_eq_true_eq]
      omega
    · rw [matrix.get_of_base m hb (m.height_ - 1) (m.width_ - 1) (by omega) (by omega)
        (by omega) (by omega) (by omega) hrow]
      have hnone : m.v.elems[((m.height_ - 1) * m.stride_ + (m.width_ - 1)).toNat]? = none := by
        rw [List.getElem?_eq_none_iff]
        omega
      rw [hnone]

/-- C17, evaluated where the code departs from it: after `matrix<int> m(2, 2)`,
four writes, `m.resize(1, 1)` and `m.shrink_to_fit()` the store holds
`height * stride = 1` element and `stride ≥ width`; the coordinate (0, 0) is
inside the grid and its flat index 0 is in `[0, height*stride)`, but `m[0][0]`
is the element 0 of the allocation the store has left, where the store has
nothing, and the read leaves the store. -/
theorem C17_stale_base_leaves_store :
    ∃ a b : matrix Int, shrunk_grid = .ok (a, b) ∧
      b.size_inv ∧ b.width ≤ b.stride ∧ b.is_inside 0 0 = true ∧
      (0 ≤ 0 * b.stride + 0 ∧ 0 * b.stride + 0 < b.height * b.stride) ∧
      b.cell 0 0 = .ok ⟨1, 0⟩ ∧ b.v.data = ⟨2, 0⟩ ∧ b.v.mem ⟨1, 0⟩ = none ∧
      b.get 0 0 = .error .undefined :=
  ⟨⟨⟨1, 1, 1, ⟨1, 0⟩⟩, ⟨[1], 4, 1⟩⟩, ⟨⟨1, 1, 1, ⟨1, 0⟩⟩, ⟨[1], 1, 2⟩⟩,
    by decide, by decide, by decide, by decide, by decide, by decide, by decide, by decide,
    by decide⟩

/-! ## What `resize` does to the content -/

/-- C16: resizing an owning grid with a store of `height * stride` elements to
`(h2, w2, s2)`, `0 ≤ w2 ≤ s2`, `0 ≤ h2`, both products `height * stride` and
`h2 * s2` being `int` values, returns a grid in which a cell
`(i, j)` whose flat index `i*s2 + j` is below the old `height*stride` reads
the old store element at that flat index, and a cell whose flat index is at
least the old `height*stride` reads the default value; for `s2` different
from the old stride and `i ≥ 1`, that flat index differs from the flat index
`i*stride + j` the cell `(i, j)` had before. -/
theorem C16_resize_does_not_remap {T : Type} [Inhabited T] (m : matrix T)
    (h2 w2 s2 : Int) (hsz : m.size_inv) (hold : in_int (m.height * m.stride))
    (hh : 0 ≤ h2) (hw : 0 ≤ w2) (hs : w2 ≤ s2) (hfit : h2 * s2 ≤ INT_MAX) :
    ∃ m2 : matrix T, m.resize h2 w2 s2 = .ok m2 ∧
      ∀ i j : Int, 0 ≤ i → i < h2 → 0 ≤ j → j < w2 →
        (i * s2 + j < m.height * m.stride →
          ∃ x, m.v.elems[(i * s2 + j).toNat]? = some x ∧ m2.get i j = .ok x) ∧
        (m.height * m.stride ≤ i * s2 + j → m2.get i j = .ok default) ∧
        (s2 ≠ m.stride → 1 ≤ i → i * s2 + j ≠ i * m.stride + j) := by
  have hold2 : in_int (m.height_ * m.stride_) := hold
  have hsz2 : (m.v.elems.length : Int) = m.height_ * m.stride_ := by
    rw [← int_mul_of_fits hold2]; exact hsz
  have hp : 0 ≤ h2 * s2 := mul_nonneg hh (le_trans hw hs)
  have _hwidth := hw
  refine ⟨_, matrix.resize_of_nonneg m h2 w2 s2 hp hfit, ?_⟩
  intro i j hi0 hi hj0 hj
  obtain ⟨hf0, hf1⟩ := flat_index_inside hi0 hi hj0 hj hs
  have hrow : in_int (i * s2) := row_offset_fits hi0 hi (le_trans hw hs) hfit
  have hget := matrix.get_of_base
    (⟨⟨h2, w2, s2, (m.v.resize (h2 * s2).toNat).data⟩, m.v.resize (h2 * s2).toNat⟩ : matrix T)
    rfl i j hi0 hi hj0 hj hf0 hrow
  have hres := std_vector.getElem?_resize m.v (h2 * s2).toNat (i * s2 + j).toNat (by omega)
  simp only [matrix_ref.height, matrix_ref.stride]
  refine ⟨?_, ?_, ?_⟩
  · intro hlt
    have hk : (i * s2 + j).toNat < m.v.elems.length := by omega
    refine ⟨m.v.elems[(i * s2 + j).toNat], List.getElem?_eq_getElem hk, ?_⟩
    rw [hget]
    simp only [hres, hk, if_true, List.getElem?_eq_getElem hk]
  · intro hge
    have hk : ¬ (i * s2 + j).toNat < m.v.elems.length := by omega
    rw [hget]
    simp only [hres, hk, if_false]
  · intro hne h1 heq
    have hmul : i * (s2 - m.stride_) = 0 := by
      have : i * (s2 - m.stride_) = (i * s2 + j) - (i * m.stride_ + j) := by ring
      rw [this, heq]; ring
    rcases mul_eq_zero.mp hmul with h | h
    · omega
    · exact hne (by omega)

/-- C16 at the 2 x 1 grid of stride 2 holding 1, 2, 3, 4, resized to (3, 1, 1):
the new cell (1, 0) reads 2, which was padding, and (2, 0) reads 3. -/
theorem C16_resize_does_not_remap_witness :
    ∃ m2 : matrix Int, example_grid.resize 3 1 1 = .ok m2 ∧
      ∀ i j : Int, 0 ≤ i → i < 3 → 0 ≤ j → j < 1 →
        (i * 1 + j < example_grid.height * example_grid.stride →
          ∃ x, example_grid.v.elems[(i * 1 + j).toNat]? = some x ∧ m2.get i j = .ok x) ∧
        (example_grid.height * example_grid.stride ≤ i * 1 + j → m2.get i j = .ok default) ∧
        ((1 : Int) ≠ example_grid.stride → 1 ≤ i →
          i * 1 + j ≠ i * example_grid.stride + j) :=
  C16_resize_does_not_remap example_grid 3 1 1 (by decide) (by decide) (by decide)
    (by decide) (by decide) (by decide)

/-- Resizing an owning grid with dimensions `(h, w, s)`, `s ≥ w`, whose base
is the start of a store of `h * s` elements, to `(h2, w2, s)` with
`s ≥ w2 ≥ 0` and `h2 ≥ 0`, both `h * s` and `h2 * s` being `int` values,
returns a grid in which every cell `(i, j)` with `0 ≤ i < min(h, h2)` and
`0 ≤ j < min(w, w2)` reads the value it read before. -/
theorem matrix.resize_same_stride_preserves {T : Type} [Inhabited T] (m : matrix T)
    (h2 w2 : Int) (hb : m.base_inv) (hsz : m.size_inv)
    (hold : in_int (m.height * m.stride)) (hws : m.width ≤ m.stride)
    (hh : 0 ≤ h2) (hw0 : 0 ≤ w2) (hw2 : w2 ≤ m.stride) (hfit : h2 * m.stride ≤ INT_MAX) :
    ∃ m2 : matrix T, m.resize h2 w2 m.stride = .ok m2 ∧
      ∀ i j : Int, 0 ≤ i → i < min m.height h2 → 0 ≤ j → j < min m.width w2 →
        ∃ x, m.get i j = .ok x ∧ m2.get i j = .ok x := by
  have hold2 : in_int (m.height_ * m.stride_) := hold
  have hsz2 : (m.v.elems.length : Int) = m.height_ * m.stride_ := by
    rw [← int_mul_of_fits hold2]; exact hsz
  have hws2 : m.width_ ≤ m.stride_ := hws
  have hw3 : w2 ≤ m.stride_ := hw2
  have hfit2 : h2 * m.stride_ ≤ INT_MAX := hfit
  simp only [matrix_ref.height, matrix_ref.width, matrix_ref.stride]
  have hp : 0 ≤ h2 * m.stride_ := mul_nonneg hh (le_trans hw0 hw3)
  refine ⟨_, matrix.resize_of_nonneg m h2 w2 m.stride_ hp hfit2, ?_⟩
  intro i j hi0 hi hj0 hj
  obtain ⟨hf0, hf1⟩ := flat_index_inside hi0 (by omega : i < m.height_) hj0
    (by omega : j < m.width_) hws2
  obtain ⟨_, hg1⟩ := flat_index_inside hi0 (by omega : i < h2) hj0 (by omega : j < w2) hw3
  have hk : (i * m.stride_ + j).toNat < m.v.elems.length := by omega
  have hi2 : i < h2 := by omega
  have hj2 : j < w2 := by omega
  have hrow : in_int (i * m.stride_) :=
    row_offset_fits hi0 hi2 (le_trans hw0 hw3) hfit2
  have hold3 := matrix.get_of_base m hb i j hi0 (by omega) hj0 (by omega) hf0 hrow
  have hnew := matrix.get_of_base
    (⟨⟨h2, w2, m.stride_, (m.v.resize (h2 * m.stride_).toNat).data⟩,
      m.v.resize (h2 * m.stride_).toNat⟩ : matrix T)
    rfl i j hi0 hi2 hj0 hj2 hf0 hrow
  have hres := std_vector.getElem?_resize m.v (h2 * m.stride_).toNat
    (i * m.stride_ + j).toNat (by omega)
  refine ⟨m.v.elems[(i * m.stride_ + j).toNat], ?_, ?_⟩
  · rw [hold3, List.getElem?_eq_getElem hk]
  · rw [hnew]
    simp only [hres, hk, if_true, List.getElem?_eq_getElem hk]

/-- C18, evaluated where the code departs from it: after `matrix<int> m(2, 2)`,
four writes, `m.resize(1, 1)` and `m.shrink_to_fit()` the grid has dimensions
(1, 1, 1) on a store of one element; `m.resize(2, 1, 1)` keeps the stride and
the cell (0, 0) survives, but it reads 1 after the resize while before it the
read went through the stale base and left the store. -/
theorem C18_stale_base_before_resize :
    ∃ a b m2 : matrix Int, shrunk_grid = .ok (a, b) ∧
      b.resize 2 1 b.stride = .ok m2 ∧
      b.size_inv ∧ b.width ≤ b.stride ∧ (1 : Int) ≤ b.stride ∧
      (0 : Int) < min b.height 2 ∧ (0 : Int) < min b.width 1 ∧
      b.get 0 0 = .error .undefined ∧ m2.get 0 0 = .ok 1 :=
  ⟨⟨⟨1, 1, 1, ⟨1, 0⟩⟩, ⟨[1], 4, 1⟩⟩, ⟨⟨1, 1, 1, ⟨1, 0⟩⟩, ⟨[1], 1, 2⟩⟩,
    ⟨⟨2, 1, 1, ⟨3, 0⟩⟩, ⟨[1, 0], 2, 3⟩⟩,
    by decide, by decide, by decide, by decide, by decide, by decide, by decide, by decide,
    by decide⟩

/-! ## Clamped access to an empty grid -/

/-- C19: with a failed assertion as the fault, `clamp_get(i, j)` on a grid
with `height = 0` or `width = 0` stops at a bounds assertion for all integers
`i`, `j` and returns no element: with `height = 0` the clamped row index is
`-1` and the row access faults; with `height > 0` and `width = 0` the row
access returns, the clamped column index is `-1` and the element access
faults. -/
theorem C19_clamp_get_on_empty_grid (g : matrix_ref) (i j : Int) :
    ((g.height = 0 ∨ g.width = 0) → g.clamp_get i j = .error .assertion) ∧
    (g.height = 0 → min (max i 0) (g.height - 1) = -1 ∧
      g.operator_index (min (max i 0) (g.height - 1)) = .error .assertion) ∧
    (0 < g.height → g.width = 0 → min (max j 0) (g.width - 1) = -1 ∧
      ∃ row, g.operator_index (min (max i 0) (g.height - 1)) = .ok row ∧
        row.operator_index (min (max j 0) (g.width - 1)) = .error .assertion) := by
  simp only [matrix_ref.height, matrix_ref.width]
  have hclamp : g.clamp_get i j =
      g.cell (min (max i 0) (g.height_ - 1)) (min (max j 0) (g.width_ - 1)) := rfl
  refine ⟨?_, ?_, ?_⟩
  · intro h0
    rw [hclamp]
    unfold matrix_ref.cell
    by_cases hrow : 0 ≤ min (max i 0) (g.height_ - 1) ∧ min (max i 0) (g.height_ - 1) < g.height_
    · have hw : g.width_ = 0 := by omega
      rw [matrix_ref.row_of_inside g _ hrow.1 hrow.2]
      exact vector_ref.element_of_outside ⟨g.width_, _⟩ _ (by simp only; omega)
    · rw [matrix_ref.row_of_outside g _ hrow]
      rfl
  · intro h0
    exact ⟨by omega, matrix_ref.row_of_outside g _ (by omega)⟩
  · intro hh hw
    exact ⟨by omega, _, matrix_ref.row_of_inside g _ (by omega) (by omega),
      vector_ref.element_of_outside ⟨g.width_, _⟩ _ (by simp only; omega)⟩

/-- C19 at a view of height 0 and at a view of width 0. -/
theorem C19_clamp_get_on_empty_grid_witness :
    (⟨0, 3, 5, ⟨7, 0⟩⟩ : matrix_ref).clamp_get 5 5 = .error .assertion ∧
    (⟨2, 0, 5, ⟨7, 0⟩⟩ : matrix_ref).clamp_get 5 5 = .error .assertion :=
  ⟨(C19_clamp_get_on_empty_grid ⟨0, 3, 5, ⟨7, 0⟩⟩ 5 5).1 (Or.inl rfl),
    (C19_clamp_get_on_empty_grid ⟨2, 0, 5, ⟨7, 0⟩⟩ 5 5).1 (Or.inr rfl)⟩

/-! ## Rows do not overlap -/

/-- Two positions of rows of stride `s`, each with a column offset in
`[0, s)`, have the same flat index only when they are the same position. -/
theorem flat_index_injective {s i j i2 j2 : Int} (hj0 : 0 ≤ j) (hj : j < s) (hk0 : 0 ≤ j2)
    (hk : j2 < s) (heq : i * s + j = i2 * s + j2) : i2 = i ∧ j2 = j := by
  have hs : 0 ≤ s := by omega
  have hi : i2 = i := by
    by_contra hne
    rcases lt_or_gt_of_ne hne with hlt | hgt
    · have h1 : (i2 + 1) * s ≤ i * s := mul_le_mul_of_nonneg_right (by omega) hs
      have h2 : (i2 + 1) * s = i2 * s + s := by ring
      omega
    · have h1 : (i + 1) * s ≤ i2 * s := mul_le_mul_of_nonneg_right (by omega) hs
      have h2 : (i + 1) * s = i * s + s := by ring
      omega
  subst hi
  exact ⟨rfl, by omega⟩

theorem pointer.add_ne_of_ne (p : pointer) {a b : Int} (h : a ≠ b) : p.add a ≠ p.add b := by
  intro he
  have := congrArg pointer.off he
  simp only [pointer.add] at this
  omega

/-- A write into a cell the store has succeeds, and the store as memory
becomes the old memory updated at that cell. -/
theorem std_vector.store_of_mem {T : Type} (v : std_vector T) (p : pointer) (x : T)
    (hsome : (v.mem p).isSome = true) :
    ∃ v2, v.store p x = .ok v2 ∧ v2.mem = Function.update v.mem p (some x) := by
  have hc : p.block = v.block ∧ 0 ≤ p.off := by
    by_contra h
    simp [std_vector.mem, h] at hsome
  have hlt : p.off.toNat < v.elems.length := by
    by_contra h
    have hnone : v.elems[p.off.toNat]? = none := List.getElem?_eq_none_iff.mpr (by omega)
    simp [std_vector.mem, hc, hnone] at hsome
  have hlt2 : p.off < (v.elems.length : Int) := by omega
  refine ⟨{ v with elems := v.elems.set p.off.toNat x }, ?_, ?_⟩
  · simp [std_vector.store, hc, hlt2]
  · funext q
    by_cases hq : q = p
    · subst hq
      rw [Function.update_same]
      simp [std_vector.mem, hc, hlt]
    · rw [Function.update_noteq hq]
      simp only [std_vector.mem]
      by_cases hqc : q.block = v.block ∧ 0 ≤ q.off
      · simp only [hqc, and_self, if_true]
        have hoff : p.off.toNat ≠ q.off.toNat := by
          intro he
          apply hq
          cases q; cases p
          simp only [pointer.mk.injEq]
          simp only at hqc hc he
          exact ⟨by omega, by omega⟩
        rw [List.getElem?_set_ne hoff]
      · simp only [hqc, if_false]


/-- C15: in a grid with `stride ≥ width` whose cells exist and whose
`height * stride` is an `int` value, the flat index `i*stride + j` is
injective on the coordinates inside the grid, so
`grid[i][j] = x` makes `grid[i][j]` read `x`, leaves every other inside cell
reading what it read, and leaves every padding element (flat index
`i2*stride + j2`, `width ≤ j2 < stride`) as it was; an owning grid that is
this view over its own store is written the same way.  Filling the
(3, 2, 4) grid with 0..5 in row-major order makes `grid[1][0]` read 2 and
`grid[1][1]` read 3, the padding keeping its initial zeros. -/
theorem C15_rows_do_not_overlap {T : Type} (g : matrix_ref) (mem : memory T) (i j : Int)
    (x : T) (hs : g.width ≤ g.stride) (hv : g.valid mem)
    (hfit : g.height * g.stride ≤ INT_MAX) (hi0 : 0 ≤ i) (hi : i < g.height)
    (hj0 : 0 ≤ j) (hj : j < g.width) :
    (∀ i2 j2 : Int, 0 ≤ i2 → i2 < g.height → 0 ≤ j2 → j2 < g.width →
      i * g.stride + j = i2 * g.stride + j2 → i2 = i ∧ j2 = j) ∧
    (∃ mem2 : memory T, g.write mem i j x = .ok mem2 ∧ g.read mem2 i j = .ok x ∧
      (∀ i2 j2 : Int, 0 ≤ i2 → i2 < g.height → 0 ≤ j2 → j2 < g.width →
        ¬ (i2 = i ∧ j2 = j) → g.read mem2 i2 j2 = g.read mem i2 j2) ∧
      (∀ i2 j2 : Int, 0 ≤ i2 → i2 < g.height → g.width ≤ j2 → j2 < g.stride →
        mem2 (g.data.add (i2 * g.stride + j2)) = mem (g.data.add (i2 * g.stride + j2))) ∧
      (∀ M : matrix T, M.tomatrix_ref = g → M.v.mem = mem →
        ∃ M2 : matrix T, M.set i j x = .ok M2 ∧ M2.tomatrix_ref = g ∧ M2.v.mem = mem2)) ∧
    ((filled_grid >>= fun m => m.get 1 0) = .ok 2 ∧
      (filled_grid >>= fun m => m.get 1 1) = .ok 3 ∧
      ∃ m, filled_grid = .ok m ∧ m.v.elems = [0, 1, 0, 0, 2, 3, 0, 0, 4, 5, 0, 0]) := by
  have hs2 : g.width_ ≤ g.stride_ := hs
  have hi2 : i < g.height_ := hi
  have hj2 : j < g.width_ := hj
  have hfit2 : g.height_ * g.stride_ ≤ INT_MAX := hfit
  have hs0 : 0 ≤ g.stride_ := by omega
  simp only [matrix_ref.height, matrix_ref.width, matrix_ref.stride, matrix_ref.data]
  have hc := matrix_ref.cell_of_inside g i j hi0 hi2 hj0 hj2
    (row_offset_fits hi0 hi2 hs0 hfit2)
  have hsome := hv i j hi0 hi2 hj0 hj2
  refine ⟨?_, ⟨Function.update mem (g.ptr_.add (i * g.stride_ + j)) (some x), ?_, ?_, ?_, ?_,
    ?_⟩, ?_⟩
  · intro i2 j2 _ _ hk0 hk heq
    exact flat_index_injective hj0 (by omega) hk0 (by omega) heq
  · simp only [matrix_ref.write, hc, bind, Except.bind, memory.store, hsome, if_true]
  · simp only [matrix_ref.read, hc, bind, Except.bind, load, Function.update_same]
  · intro i2 j2 hi20 hi2h hj20 hj2w hne
    have hc2 := matrix_ref.cell_of_inside g i2 j2 hi20 hi2h hj20 hj2w
      (row_offset_fits hi20 hi2h hs0 hfit2)
    have hflat : i2 * g.stride_ + j2 ≠ i * g.stride_ + j := fun he =>
      hne (flat_index_injective hj0 (by omega) hj20 (by omega) he.symm)
    simp only [matrix_ref.read, hc2, bind, Except.bind, load,
      Function.update_noteq (pointer.add_ne_of_ne g.ptr_ hflat)]
  · intro i2 j2 _ _ hj2w hj2s
    have hflat : i2 * g.stride_ + j2 ≠ i * g.stride_ + j := fun he => by
      have := flat_index_injective hj0 (by omega) (by omega) hj2s he.symm
      omega
    rw [Function.update_noteq (pointer.add_ne_of_ne g.ptr_ hflat)]
  · intro M hM hmem
    have hsome2 : (M.v.mem (g.ptr_.add (i * g.stride_ + j))).isSome = true := by
      rw [hmem]; exact hsome
    obtain ⟨v2, hst, hv2⟩ := std_vector.store_of_mem M.v _ x hsome2
    refine ⟨{ M with v := v2 }, ?_, hM, ?_⟩
    · simp only [matrix.set, hM, hc, bind, Except.bind, hst, pure, Except.pure]
    · rw [hv2, hmem]
  · exact ⟨by decide, by decide, _, rfl, by decide⟩

/-- C15 at the 2 x 3 view of stride 5: writing 9 to the cell (1, 2). -/
theorem C15_rows_do_not_overlap_witness :
    ∃ mem2 : memory Int, example_view.write example_memory 1 2 9 = .ok mem2 ∧
      example_view.read mem2 1 2 = .ok 9 ∧ example_view.read mem2 0 2 = .ok 102 := by
  obtain ⟨mem2, h1, h2, h3, _⟩ := (C15_rows_do_not_overlap example_view example_memory 1 2 9
    (by decide) example_view_valid (by decide) (by decide) (by decide) (by decide)
    (by decide)).2.1
  refine ⟨mem2, h1, h2, ?_⟩
  rw [h3 0 2 (by decide) (by decide) (by decide) (by decide) (by decide)]
  decide

end c4
